import Mathlib

/-!
Shallow embedding of the Run Orchestration Engine of the mission-control
dashboard: the captured-subprocess runner, the interactive iTerm2 runner,
and the SSE event broadcaster, together with theorems settling the
specification claims about them.
-/

namespace MissionControl

/-- `CliType` from the shared types module: the supported assistant backends. -/
inductive CliType
| claude
| codex
deriving DecidableEq

/-- `RunStatus` from the shared types module (the statuses stored in the
`task_runs.status` column across both runner variants). -/
inductive RunStatus
| pending
| running
| launched
| completed
| failed
| cancelled
deriving DecidableEq

/-- Terminal statuses: no transition is defined out of these. -/
def RunStatus.isTerminal : RunStatus → Bool
| .completed => true
| .failed => true
| .cancelled => true
| _ => false

/-- A row of the `task_runs` table.  Ids and timestamps are opaque in the
source (UUID strings / ISO strings); they are modelled as naturals. -/
structure TaskRun where
  id : Nat
  task_id : Nat
  cli_type : CliType
  status : RunStatus
  prompt : String
  project_dir : Option String
  pid : Option Nat := none
  output : Option (List Char) := none
  exit_code : Option Int := none
  error : Option String := none
  started_at : Option Nat := none
  completed_at : Option Nat := none
  created_at : Nat
deriving DecidableEq

/-- The slice of the `tasks` table the engine reads and writes. -/
structure Task where
  id : Nat
  status : String
  updated_at : Option Nat := none
deriving DecidableEq

/-- The discriminated events passed to `broadcast`. -/
inductive Event
| run_status_changed (runId taskId : Nat) (status : RunStatus)
    (exit_code : Option Int) (error : Option String)
| run_output (runId taskId : Nat) (output : List Char)
| task_updated (task : Task)
deriving DecidableEq

/-- The engine state: the `task_runs` and `tasks` tables, the in-memory
`activeProcesses` map (only its key set matters: which run ids are tracked
live), and the append-only log of `broadcast` calls. -/
structure EngineState where
  runs : List TaskRun
  tasks : List Task
  active : List Nat
  events : List Event
deriving DecidableEq

/-- `SELECT * FROM task_runs WHERE id = ?` (`.get`: first match). -/
def findRun (runs : List TaskRun) (runId : Nat) : Option TaskRun :=
  runs.find? (fun r => r.id == runId)

/-- The `Partial<TaskRun>` argument of `updateRun`: `some v` means the column
is set to `v` (an inner `none` writes SQL NULL, mirroring `value ?? null`).
`id`, `task_id` and `created_at` are skipped by the source and so absent. -/
structure RunPatch where
  status : Option RunStatus := none
  pid : Option (Option Nat) := none
  output : Option (Option (List Char)) := none
  exit_code : Option (Option Int) := none
  error : Option (Option String) := none
  started_at : Option (Option Nat) := none
  completed_at : Option (Option Nat) := none

/-- Apply a `RunPatch` to one row (the SET clause of `updateRun`). -/
def applyPatch (p : RunPatch) (r : TaskRun) : TaskRun :=
  { r with
    status := p.status.getD r.status
    pid := p.pid.getD r.pid
    output := p.output.getD r.output
    exit_code := p.exit_code.getD r.exit_code
    error := p.error.getD r.error
    started_at := p.started_at.getD r.started_at
    completed_at := p.completed_at.getD r.completed_at }

/-- `updateRun(runId, fields)`: `UPDATE task_runs SET ... WHERE id = ?`. -/
def updateRun (s : EngineState) (runId : Nat) (p : RunPatch) : EngineState :=
  { s with runs := s.runs.map (fun r => if r.id == runId then applyPatch p r else r) }

/-- `updateTaskStatus(taskId, status)`: updates the task row then broadcasts
a `task_updated` event when the task exists. -/
def updateTaskStatus (s : EngineState) (taskId : Nat) (status : String) (now : Nat) :
    EngineState :=
  let tasks := s.tasks.map
    (fun t => if t.id == taskId then { t with status := status, updated_at := some now } else t)
  match tasks.find? (fun t => t.id == taskId) with
  | some t => { s with tasks := tasks, events := s.events ++ [Event.task_updated t] }
  | none => { s with tasks := tasks }

/-- Errors thrown by the runners: `RunValidationError` (maps to 4xx) versus
plain internal errors (map to 5xx). -/
inductive RunError
| validation (message : String)
| internal (message : String)
deriving DecidableEq

/-- The filesystem operations used by `project_dir` validation, abstracted:
`resolve` is `path.resolve`, `pathExists` is `fs.existsSync`, `realpath` is
`fs.realpathSync` (follows symlinks), `isDirectory` is
`fs.statSync(dir).isDirectory()`. -/
structure FileSystem where
  resolve : String → String
  pathExists : String → Bool
  realpath : String → String
  isDirectory : String → Bool

/-- `ALLOWED_PROJECT_DIRS`, identical in both runner variants. -/
def ALLOWED_PROJECT_DIRS : List String :=
  ["/Users/bigwoo/repos/", "/Users/bigwoo/.openclaw/", "/tmp/"]

/-- JavaScript `String.prototype.startsWith`: is `p` a prefix of `s`? -/
def jsStartsWith (s p : String) : Bool :=
  p.data.isPrefixOf s.data

/-- The `project_dir` validation block shared verbatim by `startRun`
(captured variant) and `launchInITerm2` (interactive variant). -/
def validateProjectDir (fs : FileSystem) (project_dir : Option String) :
    Except RunError Unit :=
  match project_dir with
  | none => .ok ()
  | some pd =>
    let resolved := fs.resolve pd
    if !fs.pathExists resolved then
      .error (.validation "project_dir does not exist")
    else
      let dir := fs.realpath resolved
      if !(ALLOWED_PROJECT_DIRS.any (fun p => jsStartsWith dir p)) then
        .error (.validation
          "project_dir must be under an allowed directory: /Users/bigwoo/repos/, /Users/bigwoo/.openclaw/, /tmp/")
      else if !fs.isDirectory dir then
        .error (.validation "project_dir is not a directory")
      else
        .ok ()

/-- `StartRunOptions`, identical in both runner variants. -/
structure StartRunOptions where
  cli_type : CliType
  prompt : String
  project_dir : Option String := none

/-- The field update applied by `startRun` right after spawning. -/
def runningPatch (pid now : Nat) : RunPatch :=
  { status := some .running, pid := some (some pid), started_at := some (some now) }

/-- The field update applied by the `close` handler. -/
def closePatch (finalStatus : RunStatus) (code : Option Int) (buf : List Char)
    (now : Nat) : RunPatch :=
  { status := some finalStatus, exit_code := some code,
    output := some (some buf), completed_at := some (some now) }

/-- The field update applied by the `error` handler. -/
def errorPatch (msg : String) (buf : List Char) (now : Nat) : RunPatch :=
  { status := some .failed, error := some (some msg),
    output := some (some buf), completed_at := some (some now) }

/-- The field update applied by `cancelRun`. -/
def cancelledPatch (now : Nat) : RunPatch :=
  { status := some .cancelled, completed_at := some (some now) }

/-- The field update applied when the AppleScript launch fails. -/
def launchFailedPatch (now : Nat) : RunPatch :=
  { status := some .failed, error := some (some "Failed to launch iTerm2"),
    completed_at := some (some now) }

namespace Runner

/-- `MAX_CONCURRENT` of the captured-subprocess runner. -/
def MAX_CONCURRENT : Nat := 2

/-- `MAX_OUTPUT_SIZE` of the captured-subprocess runner (5 MB). -/
def MAX_OUTPUT_SIZE : Nat := 5 * 1024 * 1024

/-- Is a status counted by the captured variant's admission queries
(`status IN ('pending', 'running')`)? -/
def isActiveStatus (st : RunStatus) : Bool :=
  st == .pending || st == .running

/-- `SELECT COUNT(*) FROM task_runs WHERE status IN ('pending', 'running')`. -/
def countPendingRunning (runs : List TaskRun) : Nat :=
  (runs.filter (fun r => isActiveStatus r.status)).length

/-- The `insertRun` transaction of the captured variant's `startRun`:
capacity check, per-task exclusivity check, insert of the `pending` row —
one atomic step.  Returns the (unchanged) state on failure. -/
def insertRun (s : EngineState) (taskId : Nat) (options : StartRunOptions)
    (runId now : Nat) : EngineState × Except RunError Unit :=
  if MAX_CONCURRENT ≤ countPendingRunning s.runs then
    (s, .error (.validation
      "Maximum concurrent runs (2) reached. Cancel a running task first."))
  else if s.runs.any (fun r => r.task_id == taskId && isActiveStatus r.status) then
    (s, .error (.validation "Task already has an active run"))
  else
    ({ s with runs := s.runs ++
        [{ id := runId, task_id := taskId, cli_type := options.cli_type,
           status := .pending, prompt := options.prompt,
           project_dir := options.project_dir, created_at := now }] },
     .ok ())

/-- `startRun(taskId, options)` of the captured-subprocess runner.
`runId` is the fresh `randomUUID()`, `pid` the spawned child's pid, `now`
the clock.  On success the source spawns only after `insertRun()` has
returned, registers the child in `activeProcesses`, updates the row to
`running`, moves the task to `in_progress`, broadcasts, and returns the
re-read row. -/
def startRun (s : EngineState) (fs : FileSystem) (taskId : Nat)
    (options : StartRunOptions) (runId pid now : Nat) :
    EngineState × Except RunError TaskRun :=
  match validateProjectDir fs options.project_dir with
  | .error e => (s, .error e)
  | .ok _ =>
    match insertRun s taskId options runId now with
    | (_, .error e) => (s, .error e)
    | (s1, .ok _) =>
      let s2 := { s1 with active := s1.active ++ [runId] }
      let s3 := updateRun s2 runId (runningPatch pid now)
      let s4 := updateTaskStatus s3 taskId "in_progress" now
      let s5 := { s4 with events := s4.events ++
          [Event.run_status_changed runId taskId .running none none] }
      match findRun s5.runs runId with
      | some run => (s5, .ok run)
      | none => (s5, .error (.internal "run not found"))

/-- `'... (truncated) ...\n'`, the truncation marker prepended by
`handleData` once the output ceiling is exceeded. -/
def truncationMarker : List Char := "... (truncated) ...\n".toList

/-- JavaScript `String.prototype.slice(-n)`: the last `min(n, length)`
characters. -/
def sliceLast (l : List Char) (n : Nat) : List Char :=
  l.drop (l.length - n)

/-- The buffer arithmetic of `handleData`: append the chunk, and once the
accumulated length exceeds `MAX_OUTPUT_SIZE` replace the buffer by the
truncation marker followed by the last `MAX_OUTPUT_SIZE` characters. -/
def handleDataBuf (fullOutput chunk : List Char) : List Char :=
  let out := fullOutput ++ chunk
  if MAX_OUTPUT_SIZE < out.length then
    truncationMarker ++ sliceLast out MAX_OUTPUT_SIZE
  else
    out

/-- The `handleData` listener: accumulate into `fullOutput` and broadcast
the raw chunk as a `run_output` event. -/
def handleData (s : EngineState) (runId taskId : Nat) (fullOutput chunk : List Char) :
    EngineState × List Char :=
  ({ s with events := s.events ++ [Event.run_output runId taskId chunk] },
   handleDataBuf fullOutput chunk)

/-- The `child.on('close')` handler: drop the live handle, re-read the
persisted status and stop if it is already `cancelled`; otherwise persist
the terminal status (`completed` iff exit code 0), propagate the task
status and broadcast. -/
def onClose (s : EngineState) (runId taskId : Nat) (code : Option Int)
    (fullOutput : List Char) (now : Nat) : EngineState :=
  let s1 := { s with active := s.active.filter (fun x => x != runId) }
  if (findRun s1.runs runId).map TaskRun.status == some .cancelled then
    s1
  else
    let finalStatus : RunStatus := if code == some 0 then .completed else .failed
    let s2 := updateRun s1 runId (closePatch finalStatus code fullOutput now)
    let s3 :=
      if finalStatus == .completed then updateTaskStatus s2 taskId "review" now
      else if finalStatus == .failed then updateTaskStatus s2 taskId "testing" now
      else s2
    { s3 with events := s3.events ++
        [Event.run_status_changed runId taskId finalStatus code none] }

/-- The `child.on('error')` handler: drop the live handle and persist
`failed` with the error message — the source performs no re-read of the
current status here. -/
def onError (s : EngineState) (runId taskId : Nat) (errMsg : String)
    (fullOutput : List Char) (now : Nat) : EngineState :=
  let s1 := { s with active := s.active.filter (fun x => x != runId) }
  let s2 := updateRun s1 runId (errorPatch errMsg fullOutput now)
  let s3 := updateTaskStatus s2 taskId "testing" now
  { s3 with events := s3.events ++
      [Event.run_status_changed runId taskId .failed none (some errMsg)] }

/-- `cancelRun(runId)` of the captured variant: if the run id is tracked in
`activeProcesses`, persist `cancelled` first, signal (no DB effect), and
broadcast; otherwise fall back to the persisted record, but only when its
status is exactly `running`. -/
def cancelRun (s : EngineState) (runId now : Nat) : EngineState × Bool :=
  if s.active.contains runId then
    let s1 := updateRun s runId (cancelledPatch now)
    match findRun s1.runs runId with
    | some run =>
      ({ s1 with events := s1.events ++
          [Event.run_status_changed runId run.task_id .cancelled none none] }, true)
    | none => (s1, true)
  else
    match s.runs.find? (fun r => r.id == runId && r.status == RunStatus.running) with
    | some run =>
      let s1 := updateRun s runId (cancelledPatch now)
      ({ s1 with events := s1.events ++
          [Event.run_status_changed runId run.task_id .cancelled none none] }, true)
    | none => (s, false)

/-- The `setTimeout` escalation inside `cancelRun`: after the grace period,
force-kill and drop the handle if it is still tracked. -/
def cancelKillTimeout (s : EngineState) (runId : Nat) : EngineState :=
  if s.active.contains runId then
    { s with active := s.active.filter (fun x => x != runId) }
  else
    s

end Runner

namespace ITermRunner

/-- Is a status counted by the interactive variant's admission and
cancellation queries (`status IN ('pending', 'running', 'launched')`)? -/
def isActiveStatus (st : RunStatus) : Bool :=
  st == .pending || st == .running || st == .launched

/-- The `insertRun` transaction of `launchInITerm2`: per-task exclusivity
check and insert of the `launched` row — one atomic step.  There is no
capacity check in this variant. -/
def insertRun (s : EngineState) (taskId : Nat) (options : StartRunOptions)
    (runId now : Nat) : EngineState × Except RunError Unit :=
  if s.runs.any (fun r => r.task_id == taskId && isActiveStatus r.status) then
    (s, .error (.validation "Task already has an active run"))
  else
    ({ s with runs := s.runs ++
        [{ id := runId, task_id := taskId, cli_type := options.cli_type,
           status := .launched, prompt := options.prompt,
           project_dir := options.project_dir, started_at := some now,
           created_at := now }] },
     .ok ())

/-- `launchInITerm2(taskId, options)`: validate `project_dir`, run the
exclusivity-and-insert transaction, copy the prompt to the clipboard and
run the AppleScript (`osascriptOk` models whether `osascript` succeeded);
on AppleScript failure the run is persisted as `failed` and a plain
internal error is re-thrown; on success the task moves to `in_progress`
and the `launched` event is broadcast. -/
def launchInITerm2 (s : EngineState) (fs : FileSystem) (taskId : Nat)
    (options : StartRunOptions) (runId now : Nat) (osascriptOk : Bool) :
    EngineState × Except RunError TaskRun :=
  match validateProjectDir fs options.project_dir with
  | .error e => (s, .error e)
  | .ok _ =>
    match insertRun s taskId options runId now with
    | (_, .error e) => (s, .error e)
    | (s1, .ok _) =>
      if !osascriptOk then
        let s2 := updateRun s1 runId (launchFailedPatch now)
        let s3 := { s2 with events := s2.events ++
            [Event.run_status_changed runId taskId .failed none
              (some "Failed to launch iTerm2")] }
        (s3, .error (.internal "Failed to launch iTerm2"))
      else
        let s2 := updateTaskStatus s1 taskId "in_progress" now
        let s3 := { s2 with events := s2.events ++
            [Event.run_status_changed runId taskId .launched none none] }
        match findRun s3.runs runId with
        | some run => (s3, .ok run)
        | none => (s3, .error (.internal "run not found"))

/-- `startRun` of the interactive variant simply delegates to
`launchInITerm2`. -/
def startRun (s : EngineState) (fs : FileSystem) (taskId : Nat)
    (options : StartRunOptions) (runId now : Nat) (osascriptOk : Bool) :
    EngineState × Except RunError TaskRun :=
  launchInITerm2 s fs taskId options runId now osascriptOk

/-- `cancelRun(runId)` of the interactive variant: one transaction that
reads the record with any of the three non-terminal statuses and, when
found, rewrites exactly those rows to `cancelled` and broadcasts. -/
def cancelRun (s : EngineState) (runId now : Nat) : EngineState × Bool :=
  match s.runs.find? (fun r => r.id == runId && isActiveStatus r.status) with
  | none => (s, false)
  | some run =>
    let s1 := { s with runs := s.runs.map (fun (r : TaskRun) =>
        if r.id == runId && isActiveStatus r.status then
          { r with status := .cancelled, completed_at := some now }
        else r) }
    ({ s1 with events := s1.events ++
        [Event.run_status_changed runId run.task_id .cancelled none none] }, true)

/-- `markRunComplete(runId)`: a transaction reads the record only when it
is still `launched` and rewrites it to `completed`; only on that success
does it propagate the task to `review` and broadcast. -/
def markRunComplete (s : EngineState) (runId now : Nat) : EngineState × Bool :=
  match s.runs.find? (fun r => r.id == runId && r.status == RunStatus.launched) with
  | none => (s, false)
  | some run =>
    let s1 := { s with runs := s.runs.map (fun (r : TaskRun) =>
        if r.id == runId && r.status == RunStatus.launched then
          { r with status := .completed, completed_at := some now }
        else r) }
    let s2 := updateTaskStatus s1 run.task_id "review" now
    ({ s2 with events := s2.events ++
        [Event.run_status_changed runId run.task_id .completed none none] }, true)

end ITermRunner

namespace Events

/-- A registered SSE subscriber.  `alive` models whether
`controller.enqueue` succeeds (the connection is still open) or throws. -/
structure SSEClient where
  id : Nat
  alive : Bool
deriving DecidableEq

/-- The module state: the `clients` set of the event bus. -/
structure BroadcastState where
  clients : List SSEClient
deriving DecidableEq

/-- `registerClient(controller)`: `clients.add`. -/
def registerClient (s : BroadcastState) (c : SSEClient) : BroadcastState :=
  if s.clients.contains c then s else { clients := s.clients ++ [c] }

/-- `unregisterClient(controller)`: `clients.delete`. -/
def unregisterClient (s : BroadcastState) (c : SSEClient) : BroadcastState :=
  { clients := s.clients.filter (fun x => x ≠ c) }

/-- The `for (const client of clientsArray)` loop of `broadcast`: walk the
snapshot, try `enqueue` on each client; a client whose enqueue throws is
deleted from the live set, and the loop continues with the rest.  Returns
the final client set and the ids that received the event. -/
def broadcastLoop (snapshot clients : List SSEClient) (delivered : List Nat) :
    List SSEClient × List Nat :=
  match snapshot with
  | [] => (clients, delivered)
  | c :: rest =>
    if c.alive then
      broadcastLoop rest clients (delivered ++ [c.id])
    else
      broadcastLoop rest (clients.filter (fun x => x ≠ c)) delivered

/-- `broadcast(event)`: serialize once, snapshot the client set, deliver to
each subscriber, silently dropping any whose delivery throws.  It is a
total function — it never throws itself.  (The fire-and-forget Discord
dispatch that follows has no effect on the client set or deliveries.) -/
def broadcast (s : BroadcastState) (_event : Event) : BroadcastState × List Nat :=
  let result := broadcastLoop s.clients s.clients []
  ({ clients := result.1 }, result.2)

end Events

/-! ## Example states and helper facts -/

/-- A trivial filesystem: everything exists, everything is a directory,
nothing is a symlink. -/
def fsTrivial : FileSystem :=
  { resolve := id, pathExists := fun _ => true, realpath := id,
    isDirectory := fun _ => true }

/-- The state of a freshly started engine: empty tables, no live process,
no event broadcast yet. -/
def emptyState : EngineState :=
  { runs := [], tasks := [], active := [], events := [] }

/-- A run row with the given id, task, and status, defaults elsewhere. -/
def runWith (i tid : Nat) (st : RunStatus) : TaskRun :=
  { id := i, task_id := tid, cli_type := .claude, status := st,
    prompt := "fix bug", project_dir := none, created_at := 0 }

/-- A `launched` run and its owning task, for concrete evaluations. -/
def launchedRunEx : TaskRun :=
  { id := 4, task_id := 9, cli_type := .claude, status := .launched,
    prompt := "fix bug", project_dir := none, created_at := 0 }

def stateLaunched : EngineState :=
  { runs := [launchedRunEx], tasks := [{ id := 9, status := "in_progress" }],
    active := [], events := [] }

/-- A filesystem in which `/tmp/evil` is a symlink to `/etc`: the
pre-resolution path matches the `/tmp/` allow-list prefix but the real
path escapes it. -/
def fsSymlink : FileSystem :=
  { resolve := id, pathExists := fun _ => true,
    realpath := fun p => if p == "/tmp/evil" then "/etc" else p,
    isDirectory := fun _ => true }

/-- The row inserted by the captured variant's `insertRun` transaction. -/
def pendingRun (taskId : Nat) (options : StartRunOptions) (runId now : Nat) : TaskRun :=
  { id := runId, task_id := taskId, cli_type := options.cli_type,
    status := .pending, prompt := options.prompt,
    project_dir := options.project_dir, created_at := now }

/-- The same row after the captured variant's post-spawn update to
`running`. -/
def startedRun (taskId : Nat) (options : StartRunOptions) (runId pid now : Nat) : TaskRun :=
  { pendingRun taskId options runId now with
    status := .running, pid := some pid, started_at := some now }

/-- The row inserted by the interactive variant's `insertRun` transaction. -/
def launchedRun (taskId : Nat) (options : StartRunOptions) (runId now : Nat) : TaskRun :=
  { id := runId, task_id := taskId, cli_type := options.cli_type,
    status := .launched, prompt := options.prompt,
    project_dir := options.project_dir, started_at := some now, created_at := now }

/-- At most one Run per task in any of the non-terminal statuses
(`pending`, `running`, `launched`). -/
def nonTerminalCountForTask (runs : List TaskRun) (tid : Nat) : Nat :=
  (runs.filter (fun r => r.task_id == tid && !r.status.isTerminal)).length

def atMostOneNonTerminalPerTask (runs : List TaskRun) : Prop :=
  ∀ tid, nonTerminalCountForTask runs tid ≤ 1

/-- The captured variant never writes the `launched` status. -/
def noLaunched (runs : List TaskRun) : Prop :=
  ∀ r ∈ runs, r.status ≠ RunStatus.launched

/-- One event-loop turn of the captured-subprocess runner: an API call or
an asynchronous process notification.  `randomUUID()` freshness is the
side condition on `start`. -/
inductive Step (fs : FileSystem) : EngineState → EngineState → Prop
| start (s : EngineState) (taskId : Nat) (options : StartRunOptions) (runId pid now : Nat)
    (hfresh : ∀ r ∈ s.runs, r.id ≠ runId) :
    Step fs s (Runner.startRun s fs taskId options runId pid now).1
| close (s : EngineState) (runId taskId : Nat) (code : Option Int)
    (fullOutput : List Char) (now : Nat) :
    Step fs s (Runner.onClose s runId taskId code fullOutput now)
| procError (s : EngineState) (runId taskId : Nat) (errMsg : String)
    (fullOutput : List Char) (now : Nat) :
    Step fs s (Runner.onError s runId taskId errMsg fullOutput now)
| cancel (s : EngineState) (runId now : Nat) :
    Step fs s (Runner.cancelRun s runId now).1
| output (s : EngineState) (runId taskId : Nat) (fullOutput chunk : List Char) :
    Step fs s (Runner.handleData s runId taskId fullOutput chunk).1
| killTimeout (s : EngineState) (runId : Nat) :
    Step fs s (Runner.cancelKillTimeout s runId)

/-- One event-loop turn of the interactive (iTerm2) runner. -/
inductive ITermStep (fs : FileSystem) : EngineState → EngineState → Prop
| start (s : EngineState) (taskId : Nat) (options : StartRunOptions) (runId now : Nat)
    (osascriptOk : Bool) (hfresh : ∀ r ∈ s.runs, r.id ≠ runId) :
    ITermStep fs s (ITermRunner.startRun s fs taskId options runId now osascriptOk).1
| cancel (s : EngineState) (runId now : Nat) :
    ITermStep fs s (ITermRunner.cancelRun s runId now).1
| complete (s : EngineState) (runId now : Nat) :
    ITermStep fs s (ITermRunner.markRunComplete s runId now).1

/-- `n` interactive launches for `n` distinct tasks, from the empty state. -/
def launchSeq : Nat → EngineState
| 0 => emptyState
| n + 1 =>
  (ITermRunner.startRun (launchSeq n) fsTrivial n
    { cli_type := .claude, prompt := "fix bug" } n 0 true).1

/-- A state with one `cancelled` run still tracked live (the race window
between `cancelRun` and the process's exit notification). -/
def stateCancelledRun : EngineState :=
  { runs := [runWith 1 7 .cancelled], tasks := [], active := [1], events := [] }

/-- A state with one `launched` run (as the interactive variant leaves in
the shared `task_runs` table). -/
def stateLaunchedRun : EngineState :=
  { runs := [runWith 1 7 .launched], tasks := [], active := [], events := [] }

/-- A state at the concurrency cap: two `running` runs. -/
def stateTwoRunning : EngineState :=
  { runs := [runWith 1 7 .running, runWith 2 8 .running], tasks := [],
    active := [1, 2], events := [] }

/-- A state with one `running` run tracked live. -/
def stateOneRunning : EngineState :=
  { runs := [runWith 1 7 .running], tasks := [], active := [1], events := [] }

/-- A persisted `pending` run that is not tracked live (e.g. after a
restart). -/
def statePendingUntracked : EngineState :=
  { runs := [runWith 3 8 .pending], tasks := [], active := [], events := [] }

/-- Shared options for concrete evaluations. -/
def optsEx : StartRunOptions := { cli_type := .claude, prompt := "fix bug" }

@[simp]
lemma applyPatch_id (p : RunPatch) (r : TaskRun) : (applyPatch p r).id = r.id := rfl

@[simp]
lemma applyPatch_task_id (p : RunPatch) (r : TaskRun) :
    (applyPatch p r).task_id = r.task_id := rfl

@[simp]
lemma updateRun_runs (s : EngineState) (rid : Nat) (p : RunPatch) :
    (updateRun s rid p).runs
      = s.runs.map (fun r => if r.id == rid then applyPatch p r else r) := rfl

@[simp]
lemma updateRun_tasks (s : EngineState) (rid : Nat) (p : RunPatch) :
    (updateRun s rid p).tasks = s.tasks := rfl

@[simp]
lemma updateRun_active (s : EngineState) (rid : Nat) (p : RunPatch) :
    (updateRun s rid p).active = s.active := rfl

@[simp]
lemma updateRun_events (s : EngineState) (rid : Nat) (p : RunPatch) :
    (updateRun s rid p).events = s.events := rfl

@[simp]
lemma updateTaskStatus_runs (s : EngineState) (tid : Nat) (st : String) (now : Nat) :
    (updateTaskStatus s tid st now).runs = s.runs := by
  simp only [updateTaskStatus]
  split <;> rfl

@[simp]
lemma updateTaskStatus_active (s : EngineState) (tid : Nat) (st : String) (now : Nat) :
    (updateTaskStatus s tid st now).active = s.active := by
  simp only [updateTaskStatus]
  split <;> rfl

@[simp]
lemma updateTaskStatus_tasks (s : EngineState) (tid : Nat) (st : String) (now : Nat) :
    (updateTaskStatus s tid st now).tasks
      = s.tasks.map
          (fun t => if t.id == tid then { t with status := st, updated_at := some now } else t) := by
  simp only [updateTaskStatus]
  split <;> rfl

/-- A `find?` keyed on ids commutes with an id-preserving row map. -/
lemma find?_id_map (runs : List TaskRun) (rid : Nat) (g : TaskRun → TaskRun)
    (hg : ∀ r, (g r).id = r.id) :
    (runs.map g).find? (fun r => r.id == rid) = (runs.find? (fun r => r.id == rid)).map g := by
  induction runs with
  | nil => rfl
  | cons r rest ih =>
    by_cases h : r.id = rid
    · have hb : (r.id == rid) = true := by simp [h]
      simp [List.find?, hg, hb]
    · have hb : (r.id == rid) = false := by simp [h]
      simp [List.find?, hg, hb, ih]

/-- `length_filter_map_le`: mapping a row transformer that never turns a
non-matching row into a matching one cannot increase a filtered count. -/
lemma length_filter_map_le {α : Type} (l : List α) (f : α → α) (p : α → Bool)
    (h : ∀ a ∈ l, p (f a) = true → p a = true) :
    ((l.map f).filter p).length ≤ (l.filter p).length := by
  induction l with
  | nil => simp
  | cons a rest ih =>
    have hrest := ih (fun x hx => h x (List.mem_cons_of_mem a hx))
    by_cases hfa : p (f a) = true
    · have hpa : p a = true := h a (List.mem_cons_self a rest) hfa
      simp [List.filter_cons, hfa, hpa]
      omega
    · have hfa' : p (f a) = false := by
        cases hb : p (f a) with
        | true => exact absurd hb hfa
        | false => rfl
      cases hpa : p a with
      | true => simp [List.filter_cons, hfa', hpa]; omega
      | false => simp [List.filter_cons, hfa', hpa]; omega

lemma truncationMarker_length : Runner.truncationMarker.length = 20 := by decide

lemma sliceLast_length (l : List Char) (n : Nat) (h : n ≤ l.length) :
    (Runner.sliceLast l n).length = n := by
  simp [Runner.sliceLast]
  omega

lemma sliceLast_suffix (l : List Char) (n : Nat) : Runner.sliceLast l n <:+ l :=
  List.drop_suffix _ _

/-! ## C5: output accumulation and truncation -/

/-- C5 (amended): once the accumulated output exceeds `MAX_OUTPUT_SIZE`,
`handleData` replaces the buffer by the truncation marker followed by
exactly the most recent `MAX_OUTPUT_SIZE` characters — a suffix of the
accumulated output, so the head is discarded, never the tail — but the
stored result then measures `MAX_OUTPUT_SIZE` plus the 20-character
marker, so it exceeds the ceiling by the marker length (and never by
more). -/
theorem output_truncation_keeps_most_recent (fullOutput chunk : List Char) :
    (Runner.handleDataBuf fullOutput chunk).length
      ≤ Runner.MAX_OUTPUT_SIZE + Runner.truncationMarker.length
    ∧ (Runner.MAX_OUTPUT_SIZE < (fullOutput ++ chunk).length →
        Runner.handleDataBuf fullOutput chunk
          = Runner.truncationMarker
              ++ Runner.sliceLast (fullOutput ++ chunk) Runner.MAX_OUTPUT_SIZE
        ∧ Runner.sliceLast (fullOutput ++ chunk) Runner.MAX_OUTPUT_SIZE
            <:+ fullOutput ++ chunk
        ∧ (Runner.sliceLast (fullOutput ++ chunk) Runner.MAX_OUTPUT_SIZE).length
            = Runner.MAX_OUTPUT_SIZE)
    ∧ ((fullOutput ++ chunk).length ≤ Runner.MAX_OUTPUT_SIZE →
        Runner.handleDataBuf fullOutput chunk = fullOutput ++ chunk) := by
  refine ⟨?_, fun h => ⟨?_, sliceLast_suffix _ _, sliceLast_length _ _ (by omega)⟩, fun h => ?_⟩
  · by_cases h : Runner.MAX_OUTPUT_SIZE < (fullOutput ++ chunk).length
    · have hs : (Runner.sliceLast (fullOutput ++ chunk) Runner.MAX_OUTPUT_SIZE).length
          = Runner.MAX_OUTPUT_SIZE := sliceLast_length _ _ (by omega)
      simp only [Runner.handleDataBuf]
      rw [if_pos h, List.length_append, hs]
      omega
    · simp only [Runner.handleDataBuf]
      rw [if_neg h]
      omega
  · simp only [Runner.handleDataBuf]
    rw [if_pos h]
  · simp only [Runner.handleDataBuf]
    rw [if_neg (by omega : ¬ Runner.MAX_OUTPUT_SIZE < (fullOutput ++ chunk).length)]

/-- C5 witness: a single chunk one character past the ceiling is truncated
to the marker followed by the most recent `MAX_OUTPUT_SIZE` characters. -/
theorem output_truncation_keeps_most_recent_witness :
    Runner.sliceLast (([] : List Char) ++ List.replicate (Runner.MAX_OUTPUT_SIZE + 1) 'a')
        Runner.MAX_OUTPUT_SIZE
      <:+ ([] : List Char) ++ List.replicate (Runner.MAX_OUTPUT_SIZE + 1) 'a' :=
  (((output_truncation_keeps_most_recent [] (List.replicate (Runner.MAX_OUTPUT_SIZE + 1) 'a')).2.1
    (by simp)).2.1)

/-- C5 counterexample: the stored result does exceed the ceiling — after a
chunk one character past `MAX_OUTPUT_SIZE`, the buffer holds
`MAX_OUTPUT_SIZE + 20` characters, contradicting "the stored result never
exceeds the ceiling". -/
theorem output_truncation_exceeds_ceiling :
    Runner.MAX_OUTPUT_SIZE
      < (Runner.handleDataBuf [] (List.replicate (Runner.MAX_OUTPUT_SIZE + 1) 'a')).length := by
  have h : Runner.MAX_OUTPUT_SIZE
      < (([] : List Char) ++ List.replicate (Runner.MAX_OUTPUT_SIZE + 1) 'a').length := by
    simp
  have hs : (Runner.sliceLast (([] : List Char) ++ List.replicate (Runner.MAX_OUTPUT_SIZE + 1) 'a')
      Runner.MAX_OUTPUT_SIZE).length = Runner.MAX_OUTPUT_SIZE :=
    sliceLast_length _ _ (by omega)
  simp only [Runner.handleDataBuf]
  rw [if_pos h, List.length_append, hs, truncationMarker_length]
  omega

/-! ## C9: broadcast fan-out -/

lemma broadcastLoop_delivered (snapshot : List Events.SSEClient) :
    ∀ (clients : List Events.SSEClient) (delivered : List Nat),
    (Events.broadcastLoop snapshot clients delivered).2
      = delivered ++ (snapshot.filter (fun c => c.alive)).map (fun c => c.id) := by
  induction snapshot with
  | nil =>
    intro clients delivered
    simp [Events.broadcastLoop]
  | cons c rest ih =>
    intro clients delivered
    by_cases hc : c.alive
    · simp [Events.broadcastLoop, hc, ih, List.filter_cons]
    · simp [Events.broadcastLoop, hc, ih, List.filter_cons]

lemma broadcastLoop_clients (snapshot : List Events.SSEClient) :
    ∀ (clients : List Events.SSEClient) (delivered : List Nat),
    (Events.broadcastLoop snapshot clients delivered).1
      = clients.filter (fun x => x.alive || !(decide (x ∈ snapshot))) := by
  induction snapshot with
  | nil =>
    intro clients delivered
    simp [Events.broadcastLoop]
  | cons c rest ih =>
    intro clients delivered
    by_cases hc : c.alive
    · rw [show Events.broadcastLoop (c :: rest) clients delivered
          = Events.broadcastLoop rest clients (delivered ++ [c.id]) by
        simp [Events.broadcastLoop, hc]]
      rw [ih]
      refine List.filter_congr (fun x _ => ?_)
      by_cases hx : x.alive
      · simp [hx]
      · have hne : x ≠ c := fun e => hx (e ▸ hc)
        simp [hx, hne]
    · rw [show Events.broadcastLoop (c :: rest) clients delivered
          = Events.broadcastLoop rest (clients.filter (fun x => x ≠ c)) delivered by
        simp [Events.broadcastLoop, hc]]
      rw [ih, List.filter_filter]
      refine List.filter_congr (fun x _ => ?_)
      by_cases hxc : x = c
      · subst hxc
        simp [hc]
      · simp [hxc]

/-- C9: `broadcast` attempts delivery to every subscriber in the snapshot
of the registered set; exactly the live ones receive the event (in
registration order), every subscriber whose delivery throws is removed
from the set, and the function is total — a single dead subscriber never
prevents delivery to the remaining ones. -/
theorem broadcast_delivers_to_live_and_prunes_dead (s : Events.BroadcastState) (ev : Event) :
    (Events.broadcast s ev).2 = (s.clients.filter (fun c => c.alive)).map (fun c => c.id)
    ∧ (Events.broadcast s ev).1.clients = s.clients.filter (fun c => c.alive) := by
  constructor
  · simpa [Events.broadcast] using broadcastLoop_delivered s.clients s.clients []
  · show (Events.broadcastLoop s.clients s.clients []).1 = _
    rw [broadcastLoop_clients]
    refine List.filter_congr (fun x hx => ?_)
    simp [hx]

/-! ## C8: markRunComplete -/

/-- C8: `markRunComplete(runId)` returns `true` exactly when a Run with
that id is currently `launched`; on any other status or a nonexistent id
it returns `false` and leaves every Run, every Task and the event log
untouched; on success the Run becomes `completed` and the owning task is
moved to the review-pending status `"review"`. -/
theorem markRunComplete_only_from_launched (s : EngineState) (runId now : Nat) :
    ((ITermRunner.markRunComplete s runId now).2 = true ↔
      ∃ r ∈ s.runs, r.id = runId ∧ r.status = RunStatus.launched)
    ∧ ((ITermRunner.markRunComplete s runId now).2 = false →
        (ITermRunner.markRunComplete s runId now).1 = s)
    ∧ ((s.runs.map TaskRun.id).Nodup →
        ∀ r₀ ∈ s.runs, r₀.id = runId → r₀.status = RunStatus.launched →
          (findRun (ITermRunner.markRunComplete s runId now).1.runs runId).map TaskRun.status
              = some RunStatus.completed
          ∧ ∀ t ∈ (ITermRunner.markRunComplete s runId now).1.tasks,
              t.id = r₀.task_id → t.status = "review") := by
  cases hfind : s.runs.find? (fun r => r.id == runId && r.status == RunStatus.launched) with
  | none =>
    have hnone : ∀ x ∈ s.runs, ¬(x.id == runId && x.status == RunStatus.launched) = true :=
      List.find?_eq_none.mp hfind
    refine ⟨?_, ?_, ?_⟩
    · simp only [ITermRunner.markRunComplete, hfind]
      constructor
      · intro h
        exact absurd h (by simp)
      · rintro ⟨r, hr, hid, hst⟩
        exact absurd (by simp [hid, hst] : (r.id == runId && r.status == RunStatus.launched) = true)
          (hnone r hr)
    · intro _
      simp only [ITermRunner.markRunComplete, hfind]
    · intro _ r₀ hr₀ hid hst
      exact absurd (by simp [hid, hst] : (r₀.id == runId && r₀.status == RunStatus.launched) = true)
        (hnone r₀ hr₀)
  | some run =>
    have hpr := List.find?_some hfind
    have hmem : run ∈ s.runs := List.mem_of_find?_eq_some hfind
    have hid : run.id = runId := by
      simp only [Bool.and_eq_true, beq_iff_eq] at hpr
      exact hpr.1
    have hst : run.status = RunStatus.launched := by
      simp only [Bool.and_eq_true, beq_iff_eq] at hpr
      exact hpr.2
    refine ⟨?_, ?_, ?_⟩
    · simp only [ITermRunner.markRunComplete, hfind]
      exact ⟨fun _ => ⟨run, hmem, hid, hst⟩, fun _ => trivial⟩
    · intro h
      rw [show (ITermRunner.markRunComplete s runId now).2 = true by
        simp only [ITermRunner.markRunComplete, hfind]] at h
      exact absurd h (by simp)
    · intro hnodup r₀ hr₀ hid₀ hst₀
      have hrun : run = r₀ :=
        List.inj_on_of_nodup_map hnodup hmem hr₀ (by rw [hid, hid₀])
      constructor
      · have hresult : (ITermRunner.markRunComplete s runId now).1.runs
            = s.runs.map (fun r =>
                if r.id == runId && r.status == RunStatus.launched then
                  { r with status := RunStatus.completed, completed_at := some now }
                else r) := by
          simp only [ITermRunner.markRunComplete, hfind, updateTaskStatus_runs]
        rw [hresult]
        unfold findRun
        rw [find?_id_map _ _ _ (fun r => by
          by_cases h : (r.id == runId && r.status == RunStatus.launched) = true <;> simp [h])]
        have hself : s.runs.find? (fun r => r.id == runId) = some r₀ := by
          cases hf : s.runs.find? (fun r => r.id == runId) with
          | none =>
            exact absurd (by simp [hid₀] : (r₀.id == runId) = true)
              (List.find?_eq_none.mp hf r₀ hr₀)
          | some r₁ =>
            have h₁ : r₁.id = runId := by simpa using List.find?_some hf
            have hmem₁ : r₁ ∈ s.runs := List.mem_of_find?_eq_some hf
            rw [List.inj_on_of_nodup_map hnodup hmem₁ hr₀ (by rw [h₁, hid₀])]
        rw [hself]
        simp [hid₀, hst₀]
      · intro t ht hti
        have hresult : (ITermRunner.markRunComplete s runId now).1.tasks
            = s.tasks.map (fun t =>
                if t.id == run.task_id then
                  { t with status := "review", updated_at := some now }
                else t) := by
          simp only [ITermRunner.markRunComplete, hfind, updateTaskStatus_tasks,
            updateTaskStatus_runs]
        rw [hresult] at ht
        obtain ⟨t', _, hmap⟩ := List.mem_map.mp ht
        by_cases hc : t'.id = run.task_id
        · rw [← hmap, if_pos (by simp [hc])]
        · rw [← hmap, if_neg (by simp [hc])] at hti ⊢
          exact absurd (hti.trans (by rw [hrun])) hc

/-- C8 witness: completing the launched run of `stateLaunched` persists
`completed`. -/
theorem markRunComplete_only_from_launched_witness :
    (findRun (ITermRunner.markRunComplete stateLaunched 4 5).1.runs 4).map TaskRun.status
      = some RunStatus.completed :=
  ((markRunComplete_only_from_launched stateLaunched 4 5).2.2
    (by decide) launchedRunEx (by decide) (by decide) (by decide)).1

/-! ## C7: project_dir validation -/

/-- C7: `project_dir` validation succeeds exactly when the resolved path
exists and its symlink-resolved real path both starts with an allow-listed
prefix and is a directory; a path whose pre-resolution string matches a
prefix but whose real path escapes the allow-list is rejected with a
validation error; and in both runner variants a validation failure
surfaces unchanged with no Run inserted and no other state change. -/
theorem project_dir_symlink_validation :
    (∀ (fs : FileSystem) (pd : String),
      validateProjectDir fs (some pd) = .ok () ↔
        (fs.pathExists (fs.resolve pd) = true
         ∧ ALLOWED_PROJECT_DIRS.any
             (fun p => jsStartsWith (fs.realpath (fs.resolve pd)) p) = true
         ∧ fs.isDirectory (fs.realpath (fs.resolve pd)) = true))
    ∧ (∀ (fs : FileSystem) (pd : String),
        ALLOWED_PROJECT_DIRS.any (fun p => jsStartsWith pd p) = true →
        ALLOWED_PROJECT_DIRS.any
            (fun p => jsStartsWith (fs.realpath (fs.resolve pd)) p) = false →
        ∃ m, validateProjectDir fs (some pd) = .error (.validation m))
    ∧ (∀ (fs : FileSystem) (s : EngineState) (taskId : Nat) (options : StartRunOptions)
        (runId pid now : Nat) (e : RunError),
        validateProjectDir fs options.project_dir = .error e →
        Runner.startRun s fs taskId options runId pid now = (s, .error e))
    ∧ (∀ (fs : FileSystem) (s : EngineState) (taskId : Nat) (options : StartRunOptions)
        (runId now : Nat) (osascriptOk : Bool) (e : RunError),
        validateProjectDir fs options.project_dir = .error e →
        ITermRunner.startRun s fs taskId options runId now osascriptOk = (s, .error e)) := by
  refine ⟨fun fs pd => ?_, fun fs pd hpre hreal => ?_,
    fun fs s tid opts rid pid now e hv => ?_,
    fun fs s tid opts rid now osa e hv => ?_⟩
  · cases hE : fs.pathExists (fs.resolve pd) <;>
    cases hA : ALLOWED_PROJECT_DIRS.any
        (fun p => jsStartsWith (fs.realpath (fs.resolve pd)) p) <;>
    cases hD : fs.isDirectory (fs.realpath (fs.resolve pd)) <;>
    simp [validateProjectDir, hE, hA, hD]
  · cases hE : fs.pathExists (fs.resolve pd)
    · exact ⟨"project_dir does not exist", by simp [validateProjectDir, hE]⟩
    · refine ⟨"project_dir must be under an allowed directory: /Users/bigwoo/repos/, /Users/bigwoo/.openclaw/, /tmp/", ?_⟩
      simp [validateProjectDir, hE, hreal]
  · simp [Runner.startRun, hv]
  · simp [ITermRunner.startRun, ITermRunner.launchInITerm2, hv]

/-- C7 witness: `/tmp/evil -> /etc` is rejected although the
pre-resolution string starts with `/tmp/`. -/
theorem project_dir_symlink_validation_witness :
    ∃ m, validateProjectDir fsSymlink (some "/tmp/evil") = .error (.validation m) :=
  project_dir_symlink_validation.2.1 fsSymlink "/tmp/evil" (by decide) (by decide)

/-! ## Machinery for the captured-subprocess runner -/

lemma isActiveStatus_of_terminal (st : RunStatus) (h : st.isTerminal = true) :
    Runner.isActiveStatus st = false := by
  cases st <;> simp_all [Runner.isActiveStatus, RunStatus.isTerminal]

lemma iterm_isActiveStatus_eq_not_terminal (st : RunStatus) :
    ITermRunner.isActiveStatus st = !st.isTerminal := by
  cases st <;> rfl

lemma map_patch_fresh (runs : List TaskRun) (rid : Nat) (p : RunPatch)
    (hfresh : ∀ r ∈ runs, r.id ≠ rid) :
    runs.map (fun r => if r.id == rid then applyPatch p r else r) = runs := by
  induction runs with
  | nil => rfl
  | cons r rest ih =>
    have hne : r.id ≠ rid := hfresh r (List.mem_cons_self r rest)
    rw [List.map_cons, if_neg (by simpa using hne),
      ih (fun x hx => hfresh x (List.mem_cons_of_mem r hx))]

lemma findRun_append_fresh (runs : List TaskRun) (r' : TaskRun) (rid : Nat)
    (hfresh : ∀ r ∈ runs, r.id ≠ rid) (hr' : r'.id = rid) :
    findRun (runs ++ [r']) rid = some r' := by
  unfold findRun
  rw [List.find?_append]
  have hnone : runs.find? (fun r => r.id == rid) = none :=
    List.find?_eq_none.mpr (fun x hx => by simp [hfresh x hx])
  rw [hnone]
  simp [List.find?, hr']

lemma insertRun_capacity (s : EngineState) (tid : Nat) (opts : StartRunOptions)
    (rid now : Nat) (h : Runner.MAX_CONCURRENT ≤ Runner.countPendingRunning s.runs) :
    Runner.insertRun s tid opts rid now
      = (s, .error (.validation
          "Maximum concurrent runs (2) reached. Cancel a running task first.")) := by
  simp [Runner.insertRun, h]

lemma insertRun_activeTask (s : EngineState) (tid : Nat) (opts : StartRunOptions)
    (rid now : Nat) (hcap : Runner.countPendingRunning s.runs < Runner.MAX_CONCURRENT)
    (hact : s.runs.any (fun r => r.task_id == tid && Runner.isActiveStatus r.status) = true) :
    Runner.insertRun s tid opts rid now
      = (s, .error (.validation "Task already has an active run")) := by
  simp [Runner.insertRun, Nat.not_le.mpr hcap, hact]

lemma insertRun_success (s : EngineState) (tid : Nat) (opts : StartRunOptions)
    (rid now : Nat) (hcap : Runner.countPendingRunning s.runs < Runner.MAX_CONCURRENT)
    (hact : s.runs.any (fun r => r.task_id == tid && Runner.isActiveStatus r.status) = false) :
    Runner.insertRun s tid opts rid now
      = ({ s with runs := s.runs ++ [pendingRun tid opts rid now] }, .ok ()) := by
  simp [Runner.insertRun, Nat.not_le.mpr hcap, hact, pendingRun]

lemma applyPatch_pendingRun (tid : Nat) (opts : StartRunOptions) (rid pid now : Nat) :
    applyPatch (runningPatch pid now) (pendingRun tid opts rid now)
      = startedRun tid opts rid pid now := rfl

lemma startRun_success_eq (s : EngineState) (fs : FileSystem) (tid : Nat)
    (opts : StartRunOptions) (rid pid now : Nat)
    (hfresh : ∀ r ∈ s.runs, r.id ≠ rid)
    (hv : validateProjectDir fs opts.project_dir = .ok ())
    (hcap : Runner.countPendingRunning s.runs < Runner.MAX_CONCURRENT)
    (hact : s.runs.any (fun r => r.task_id == tid && Runner.isActiveStatus r.status) = false) :
    (Runner.startRun s fs tid opts rid pid now).1.runs
        = s.runs ++ [startedRun tid opts rid pid now]
    ∧ (Runner.startRun s fs tid opts rid pid now).1.active = s.active ++ [rid]
    ∧ (Runner.startRun s fs tid opts rid pid now).2 = .ok (startedRun tid opts rid pid now) := by
  have hins := insertRun_success s tid opts rid now hcap hact
  have hruns : (s.runs ++ [pendingRun tid opts rid now]).map
      (fun r => if r.id == rid then applyPatch (runningPatch pid now) r else r)
      = s.runs ++ [startedRun tid opts rid pid now] := by
    rw [List.map_append, map_patch_fresh s.runs rid _ hfresh]
    simp only [List.map_cons, List.map_nil]
    rw [if_pos (show ((pendingRun tid opts rid now).id == rid) = true by simp [pendingRun])]
    rw [applyPatch_pendingRun]
  have hfind : findRun (s.runs ++ [startedRun tid opts rid pid now]) rid
      = some (startedRun tid opts rid pid now) :=
    findRun_append_fresh s.runs _ rid hfresh rfl
  simp only [Runner.startRun, hv, hins, updateRun_runs, updateRun_active,
    updateTaskStatus_runs, updateTaskStatus_active, hruns, hfind]
  exact ⟨by trivial, by trivial, by trivial⟩

lemma validateProjectDir_error_validation (fs : FileSystem) (pd : Option String)
    (e : RunError) (h : validateProjectDir fs pd = .error e) : ∃ m, e = .validation m := by
  cases pd with
  | none => exact absurd h (by simp [validateProjectDir])
  | some p =>
    simp only [validateProjectDir] at h
    split at h
    · exact ⟨_, by simpa using h.symm⟩
    · split at h
      · exact ⟨_, by simpa using h.symm⟩
      · split at h
        · exact ⟨_, by simpa using h.symm⟩
        · exact absurd h (by simp)

/-- In the success path the re-read of the inserted row never misses:
the patched append always contains a row with the requested id. -/
lemma findRun_patch_append_isSome (runs : List TaskRun) (r' : TaskRun) (rid : Nat)
    (p : RunPatch) (hr' : r'.id = rid) :
    ∃ run, findRun ((runs ++ [r']).map
        (fun r => if r.id == rid then applyPatch p r else r)) rid = some run := by
  have hg : ∀ r : TaskRun,
      ((fun r => if r.id == rid then applyPatch p r else r) r).id = r.id := by
    intro r
    by_cases h : (r.id == rid) = true <;> simp [h]
  rw [show findRun ((runs ++ [r']).map
        (fun r => if r.id == rid then applyPatch p r else r)) rid
      = ((runs ++ [r']).find? (fun r => r.id == rid)).map
          (fun r => if r.id == rid then applyPatch p r else r) from
    find?_id_map _ _ _ hg]
  cases hx : (runs ++ [r']).find? (fun r => r.id == rid) with
  | some r0 => exact ⟨_, rfl⟩
  | none =>
    have hmem : r' ∈ runs ++ [r'] := by simp
    have := List.find?_eq_none.mp hx r' hmem
    simp [hr'] at this

lemma startRun_error_eq (s : EngineState) (fs : FileSystem) (tid : Nat)
    (opts : StartRunOptions) (rid pid now : Nat) (e : RunError)
    (h : (Runner.startRun s fs tid opts rid pid now).2 = .error e) :
    (Runner.startRun s fs tid opts rid pid now).1 = s
    ∧ ∃ m, e = .validation m := by
  cases hv : validateProjectDir fs opts.project_dir with
  | error e' =>
    have hs : Runner.startRun s fs tid opts rid pid now = (s, .error e') := by
      simp [Runner.startRun, hv]
    rw [hs] at h ⊢
    obtain ⟨m, hm⟩ := validateProjectDir_error_validation fs opts.project_dir e' hv
    simp only at h
    cases h
    exact ⟨rfl, ⟨m, hm⟩⟩
  | ok u =>
    cases u
    by_cases hcap : Runner.MAX_CONCURRENT ≤ Runner.countPendingRunning s.runs
    · have hs : Runner.startRun s fs tid opts rid pid now
          = (s, .error (.validation
              "Maximum concurrent runs (2) reached. Cancel a running task first.")) := by
        simp [Runner.startRun, hv, insertRun_capacity s tid opts rid now hcap]
      rw [hs] at h ⊢
      simp only at h
      cases h
      exact ⟨rfl, ⟨_, rfl⟩⟩
    · have hcap' : Runner.countPendingRunning s.runs < Runner.MAX_CONCURRENT :=
        Nat.lt_of_not_le hcap
      cases hact : s.runs.any (fun r => r.task_id == tid && Runner.isActiveStatus r.status) with
      | true =>
        have hs : Runner.startRun s fs tid opts rid pid now
            = (s, .error (.validation "Task already has an active run")) := by
          simp [Runner.startRun, hv, insertRun_activeTask s tid opts rid now hcap' hact]
        rw [hs] at h ⊢
        simp only at h
        cases h
        exact ⟨rfl, ⟨_, rfl⟩⟩
      | false =>
        exfalso
        have hins := insertRun_success s tid opts rid now hcap' hact
        obtain ⟨run, hfind⟩ := findRun_patch_append_isSome s.runs
          (pendingRun tid opts rid now) rid (runningPatch pid now) rfl
        have : (Runner.startRun s fs tid opts rid pid now).2 = .ok run := by
          simp only [Runner.startRun, hv, hins, updateRun_runs, updateTaskStatus_runs, hfind]
        rw [this] at h
        cases h

lemma startRun_outcome (s : EngineState) (fs : FileSystem) (tid : Nat)
    (opts : StartRunOptions) (rid pid now : Nat)
    (hfresh : ∀ r ∈ s.runs, r.id ≠ rid) :
    (Runner.startRun s fs tid opts rid pid now).1 = s
    ∨ ((Runner.startRun s fs tid opts rid pid now).1.runs
          = s.runs ++ [startedRun tid opts rid pid now]
        ∧ Runner.countPendingRunning s.runs < Runner.MAX_CONCURRENT
        ∧ s.runs.any (fun r => r.task_id == tid && Runner.isActiveStatus r.status) = false) := by
  cases hr : (Runner.startRun s fs tid opts rid pid now).2 with
  | error e => exact Or.inl (startRun_error_eq s fs tid opts rid pid now e hr).1
  | ok run =>
    cases hv : validateProjectDir fs opts.project_dir with
    | error e' =>
      have hs : Runner.startRun s fs tid opts rid pid now = (s, .error e') := by
        simp [Runner.startRun, hv]
      rw [hs] at hr
      cases hr
    | ok u =>
      cases u
      by_cases hcap : Runner.MAX_CONCURRENT ≤ Runner.countPendingRunning s.runs
      · have hs : Runner.startRun s fs tid opts rid pid now
            = (s, .error (.validation
                "Maximum concurrent runs (2) reached. Cancel a running task first.")) := by
          simp [Runner.startRun, hv, insertRun_capacity s tid opts rid now hcap]
        rw [hs] at hr
        cases hr
      · have hcap' : Runner.countPendingRunning s.runs < Runner.MAX_CONCURRENT :=
          Nat.lt_of_not_le hcap
        cases hact : s.runs.any (fun r => r.task_id == tid && Runner.isActiveStatus r.status) with
        | true =>
          have hs : Runner.startRun s fs tid opts rid pid now
              = (s, .error (.validation "Task already has an active run")) := by
            simp [Runner.startRun, hv, insertRun_activeTask s tid opts rid now hcap' hact]
          rw [hs] at hr
          cases hr
        | false =>
          exact Or.inr ⟨(startRun_success_eq s fs tid opts rid pid now hfresh hv hcap' hact).1,
            hcap', rfl⟩

lemma countPendingRunning_append (l₁ l₂ : List TaskRun) :
    Runner.countPendingRunning (l₁ ++ l₂)
      = Runner.countPendingRunning l₁ + Runner.countPendingRunning l₂ := by
  simp [Runner.countPendingRunning, List.filter_append]

lemma nonTerminalCountForTask_append (l₁ l₂ : List TaskRun) (tid : Nat) :
    nonTerminalCountForTask (l₁ ++ l₂) tid
      = nonTerminalCountForTask l₁ tid + nonTerminalCountForTask l₂ tid := by
  simp [nonTerminalCountForTask, List.filter_append]

lemma nonTerminalCountForTask_map_le (runs : List TaskRun) (f : TaskRun → TaskRun) (tid : Nat)
    (hf : ∀ r ∈ runs, (f r).task_id = r.task_id
        ∧ ((f r).status = r.status ∨ (f r).status.isTerminal = true)) :
    nonTerminalCountForTask (runs.map f) tid ≤ nonTerminalCountForTask runs tid := by
  apply length_filter_map_le
  intro r hr hp
  obtain ⟨hid, hst⟩ := hf r hr
  rw [hid] at hp
  cases hst with
  | inl heq => rw [heq] at hp; exact hp
  | inr hterm => rw [hterm] at hp; simp at hp

lemma applyPatch_status (p : RunPatch) (st : RunStatus) (r : TaskRun)
    (hst : p.status = some st) : (applyPatch p r).status = st := by
  simp [applyPatch, hst]

/-- The row transformers of the lifecycle handlers: they keep `task_id`
and either keep the status or move it to a terminal one. -/
lemma patch_map_pointwise (rid : Nat) (p : RunPatch) (st : RunStatus)
    (hst : p.status = some st) (hterm : st.isTerminal = true) (r : TaskRun) :
    (if r.id == rid then applyPatch p r else r).task_id = r.task_id
    ∧ ((if r.id == rid then applyPatch p r else r).status = r.status
        ∨ (if r.id == rid then applyPatch p r else r).status.isTerminal = true) := by
  by_cases h : (r.id == rid) = true
  · rw [if_pos h]
    refine ⟨applyPatch_task_id p r, Or.inr ?_⟩
    rw [applyPatch_status p st r hst]
    exact hterm
  · rw [if_neg h]
    exact ⟨rfl, Or.inl rfl⟩

lemma patch_map_active_le (runs : List TaskRun) (rid : Nat) (p : RunPatch) (st : RunStatus)
    (hst : p.status = some st) (hterm : st.isTerminal = true) :
    Runner.countPendingRunning
        (runs.map (fun r => if r.id == rid then applyPatch p r else r))
      ≤ Runner.countPendingRunning runs := by
  apply length_filter_map_le
  intro r _ hp
  by_cases h : (r.id == rid) = true
  · rw [if_pos h, applyPatch_status p st r hst,
      isActiveStatus_of_terminal st hterm] at hp
    cases hp
  · rwa [if_neg h] at hp

lemma handleData_state (s : EngineState) (runId taskId : Nat) (buf chunk : List Char) :
    (Runner.handleData s runId taskId buf chunk).1.runs = s.runs
    ∧ (Runner.handleData s runId taskId buf chunk).1.tasks = s.tasks
    ∧ (Runner.handleData s runId taskId buf chunk).1.active = s.active := ⟨rfl, rfl, rfl⟩

lemma cancelKillTimeout_runs (s : EngineState) (rid : Nat) :
    (Runner.cancelKillTimeout s rid).runs = s.runs := by
  unfold Runner.cancelKillTimeout
  split <;> rfl

lemma onError_runs (s : EngineState) (runId taskId : Nat) (msg : String)
    (buf : List Char) (now : Nat) :
    (Runner.onError s runId taskId msg buf now).runs
      = s.runs.map (fun r => if r.id == runId then
          applyPatch (errorPatch msg buf now) r else r) := by
  simp only [Runner.onError, updateRun_runs, updateTaskStatus_runs]

lemma onClose_runs (s : EngineState) (runId taskId : Nat) (code : Option Int)
    (buf : List Char) (now : Nat) :
    (Runner.onClose s runId taskId code buf now).runs = s.runs
    ∨ ∃ st : RunStatus, st.isTerminal = true
        ∧ (Runner.onClose s runId taskId code buf now).runs
            = s.runs.map (fun r => if r.id == runId then
                applyPatch (closePatch st code buf now) r else r) := by
  by_cases hc : ((findRun s.runs runId).map TaskRun.status == some RunStatus.cancelled) = true
  · left
    simp only [Runner.onClose, if_pos hc]
  · right
    by_cases hcode : (code == some 0) = true
    · refine ⟨.completed, rfl, ?_⟩
      simp only [Runner.onClose, if_neg hc, hcode]
      simp [updateTaskStatus_runs]
    · refine ⟨.failed, rfl, ?_⟩
      simp only [Runner.onClose, if_neg hc, hcode]
      simp [updateTaskStatus_runs]

lemma cancelRun_runs (s : EngineState) (runId now : Nat) :
    (Runner.cancelRun s runId now).1.runs = s.runs
    ∨ (Runner.cancelRun s runId now).1.runs
        = s.runs.map (fun r => if r.id == runId then
            applyPatch (cancelledPatch now) r else r) := by
  unfold Runner.cancelRun
  by_cases hm : (s.active.contains runId) = true
  · rw [if_pos hm]
    right
    dsimp only
    split <;> rfl
  · rw [if_neg hm]
    split
    · right; rfl
    · left; rfl

/-! ## Machinery for the interactive (iTerm2) runner -/

lemma iterm_insertRun_active (s : EngineState) (tid : Nat) (opts : StartRunOptions)
    (rid now : Nat)
    (hact : s.runs.any
      (fun r => r.task_id == tid && ITermRunner.isActiveStatus r.status) = true) :
    ITermRunner.insertRun s tid opts rid now
      = (s, .error (.validation "Task already has an active run")) := by
  simp [ITermRunner.insertRun, hact]

lemma iterm_insertRun_success (s : EngineState) (tid : Nat) (opts : StartRunOptions)
    (rid now : Nat)
    (hact : s.runs.any
      (fun r => r.task_id == tid && ITermRunner.isActiveStatus r.status) = false) :
    ITermRunner.insertRun s tid opts rid now
      = ({ s with runs := s.runs ++ [launchedRun tid opts rid now] }, .ok ()) := by
  simp [ITermRunner.insertRun, hact, launchedRun]

lemma iterm_startRun_validation_error (s : EngineState) (fs : FileSystem) (tid : Nat)
    (opts : StartRunOptions) (rid now : Nat) (osa : Bool) (e : RunError)
    (hv : validateProjectDir fs opts.project_dir = .error e) :
    ITermRunner.startRun s fs tid opts rid now osa = (s, .error e) := by
  simp [ITermRunner.startRun, ITermRunner.launchInITerm2, hv]

lemma iterm_startRun_active_eq (s : EngineState) (fs : FileSystem) (tid : Nat)
    (opts : StartRunOptions) (rid now : Nat) (osa : Bool)
    (hv : validateProjectDir fs opts.project_dir = .ok ())
    (hact : s.runs.any
      (fun r => r.task_id == tid && ITermRunner.isActiveStatus r.status) = true) :
    ITermRunner.startRun s fs tid opts rid now osa
      = (s, .error (.validation "Task already has an active run")) := by
  simp [ITermRunner.startRun, ITermRunner.launchInITerm2, hv,
    iterm_insertRun_active s tid opts rid now hact]

lemma iterm_startRun_success_eq (s : EngineState) (fs : FileSystem) (tid : Nat)
    (opts : StartRunOptions) (rid now : Nat)
    (hfresh : ∀ r ∈ s.runs, r.id ≠ rid)
    (hv : validateProjectDir fs opts.project_dir = .ok ())
    (hact : s.runs.any
      (fun r => r.task_id == tid && ITermRunner.isActiveStatus r.status) = false) :
    (ITermRunner.startRun s fs tid opts rid now true).1.runs
        = s.runs ++ [launchedRun tid opts rid now]
    ∧ (ITermRunner.startRun s fs tid opts rid now true).2
        = .ok (launchedRun tid opts rid now) := by
  have hins := iterm_insertRun_success s tid opts rid now hact
  have hfind : findRun (s.runs ++ [launchedRun tid opts rid now]) rid
      = some (launchedRun tid opts rid now) :=
    findRun_append_fresh s.runs _ rid hfresh rfl
  simp only [ITermRunner.startRun, ITermRunner.launchInITerm2, hv, hins,
    Bool.not_true, Bool.false_eq_true, if_false, updateTaskStatus_runs, hfind]
  exact ⟨by trivial, by trivial⟩

lemma iterm_startRun_osafail_eq (s : EngineState) (fs : FileSystem) (tid : Nat)
    (opts : StartRunOptions) (rid now : Nat)
    (hfresh : ∀ r ∈ s.runs, r.id ≠ rid)
    (hv : validateProjectDir fs opts.project_dir = .ok ())
    (hact : s.runs.any
      (fun r => r.task_id == tid && ITermRunner.isActiveStatus r.status) = false) :
    (ITermRunner.startRun s fs tid opts rid now false).1.runs
        = s.runs ++ [applyPatch (launchFailedPatch now) (launchedRun tid opts rid now)]
    ∧ (ITermRunner.startRun s fs tid opts rid now false).2
        = .error (.internal "Failed to launch iTerm2") := by
  have hins := iterm_insertRun_success s tid opts rid now hact
  have hruns : (s.runs ++ [launchedRun tid opts rid now]).map
      (fun r => if r.id == rid then applyPatch (launchFailedPatch now) r else r)
      = s.runs ++ [applyPatch (launchFailedPatch now) (launchedRun tid opts rid now)] := by
    rw [List.map_append, map_patch_fresh s.runs rid _ hfresh]
    simp only [List.map_cons, List.map_nil]
    rw [if_pos (show ((launchedRun tid opts rid now).id == rid) = true by simp [launchedRun])]
  simp only [ITermRunner.startRun, ITermRunner.launchInITerm2, hv, hins,
    Bool.not_false, if_true, updateRun_runs, hruns]
  exact ⟨by trivial, by trivial⟩

lemma iterm_startRun_outcome (s : EngineState) (fs : FileSystem) (tid : Nat)
    (opts : StartRunOptions) (rid now : Nat) (osa : Bool)
    (hfresh : ∀ r ∈ s.runs, r.id ≠ rid) :
    (ITermRunner.startRun s fs tid opts rid now osa).1 = s
    ∨ ∃ r' : TaskRun,
        (ITermRunner.startRun s fs tid opts rid now osa).1.runs = s.runs ++ [r']
        ∧ r'.task_id = tid
        ∧ (r'.status = RunStatus.launched ∨ r'.status.isTerminal = true)
        ∧ s.runs.any
            (fun r => r.task_id == tid && ITermRunner.isActiveStatus r.status) = false := by
  cases hv : validateProjectDir fs opts.project_dir with
  | error e =>
    left
    rw [iterm_startRun_validation_error s fs tid opts rid now osa e hv]
  | ok u =>
    cases u
    cases hact : s.runs.any
        (fun r => r.task_id == tid && ITermRunner.isActiveStatus r.status) with
    | true =>
      left
      rw [iterm_startRun_active_eq s fs tid opts rid now osa hv hact]
    | false =>
      right
      cases osa with
      | true =>
        exact ⟨launchedRun tid opts rid now,
          (iterm_startRun_success_eq s fs tid opts rid now hfresh hv hact).1,
          rfl, Or.inl rfl, rfl⟩
      | false =>
        exact ⟨applyPatch (launchFailedPatch now) (launchedRun tid opts rid now),
          (iterm_startRun_osafail_eq s fs tid opts rid now hfresh hv hact).1,
          rfl, Or.inr rfl, rfl⟩

/-- The conditional status rewrites of the interactive variant's
`cancelRun` and `markRunComplete` transactions keep `task_id` and move the
status only toward a terminal one. -/
lemma cond_set_pointwise (c : TaskRun → Bool) (stT : RunStatus)
    (hterm : stT.isTerminal = true) (now : Nat) (r : TaskRun) :
    (if c r then { r with status := stT, completed_at := some now } else r).task_id
        = r.task_id
    ∧ ((if c r then { r with status := stT, completed_at := some now } else r).status
          = r.status
        ∨ (if c r then
            { r with status := stT, completed_at := some now } else r).status.isTerminal
            = true) := by
  by_cases h : c r = true
  · rw [if_pos h]
    exact ⟨rfl, Or.inr hterm⟩
  · rw [if_neg h]
    exact ⟨rfl, Or.inl rfl⟩

lemma iterm_cancelRun_runs (s : EngineState) (rid now : Nat) :
    (ITermRunner.cancelRun s rid now).1.runs = s.runs
    ∨ (ITermRunner.cancelRun s rid now).1.runs
        = s.runs.map (fun r =>
            if r.id == rid && ITermRunner.isActiveStatus r.status then
              { r with status := .cancelled, completed_at := some now }
            else r) := by
  unfold ITermRunner.cancelRun
  split
  · left; rfl
  · right; rfl

lemma markRunComplete_runs (s : EngineState) (rid now : Nat) :
    (ITermRunner.markRunComplete s rid now).1.runs = s.runs
    ∨ (ITermRunner.markRunComplete s rid now).1.runs
        = s.runs.map (fun r =>
            if r.id == rid && r.status == RunStatus.launched then
              { r with status := .completed, completed_at := some now }
            else r) := by
  unfold ITermRunner.markRunComplete
  split
  · left; rfl
  · right
    simp [updateTaskStatus_runs]

/-! ## Invariant preservation -/

lemma terminal_ne_launched (st : RunStatus) (h : st.isTerminal = true) :
    st ≠ RunStatus.launched := by
  intro e
  rw [e] at h
  exact absurd h (by decide)

lemma nonTerminalCountForTask_single_le (r : TaskRun) (tid : Nat) :
    nonTerminalCountForTask [r] tid ≤ 1 := by
  have := List.length_filter_le (fun r : TaskRun => r.task_id == tid && !r.status.isTerminal) [r]
  simpa [nonTerminalCountForTask] using this

lemma nonTerminalCountForTask_single_ne (r : TaskRun) (tid : Nat) (h : r.task_id ≠ tid) :
    nonTerminalCountForTask [r] tid = 0 := by
  simp [nonTerminalCountForTask, h]

lemma nonTerminalCount_zero_of_guard (runs : List TaskRun) (tid : Nat)
    (hact : runs.any (fun r => r.task_id == tid && Runner.isActiveStatus r.status) = false)
    (hnl : noLaunched runs) : nonTerminalCountForTask runs tid = 0 := by
  rw [nonTerminalCountForTask, List.length_eq_zero, List.filter_eq_nil_iff]
  intro r hr hp
  have hnot := List.any_eq_false.mp hact r hr
  rw [Bool.and_eq_true] at hp
  obtain ⟨hid, hnt⟩ := hp
  cases hstatus : r.status with
  | pending => exact hnot (by simp [hid, hstatus, Runner.isActiveStatus])
  | running => exact hnot (by simp [hid, hstatus, Runner.isActiveStatus])
  | launched => exact hnl r hr hstatus
  | completed => rw [hstatus] at hnt; exact absurd hnt (by decide)
  | failed => rw [hstatus] at hnt; exact absurd hnt (by decide)
  | cancelled => rw [hstatus] at hnt; exact absurd hnt (by decide)

lemma iterm_nonTerminalCount_zero_of_guard (runs : List TaskRun) (tid : Nat)
    (hact : runs.any
      (fun r => r.task_id == tid && ITermRunner.isActiveStatus r.status) = false) :
    nonTerminalCountForTask runs tid = 0 := by
  rw [nonTerminalCountForTask, List.length_eq_zero, List.filter_eq_nil_iff]
  intro r hr hp
  have hnot := List.any_eq_false.mp hact r hr
  rw [Bool.and_eq_true] at hp
  obtain ⟨hid, hnt⟩ := hp
  apply hnot
  rw [Bool.and_eq_true]
  exact ⟨hid, by rw [iterm_isActiveStatus_eq_not_terminal]; exact hnt⟩

lemma patch_map_nonterminal_le (runs : List TaskRun) (rid : Nat) (p : RunPatch)
    (st : RunStatus) (hst : p.status = some st) (hterm : st.isTerminal = true) (tid : Nat) :
    nonTerminalCountForTask
        (runs.map (fun r => if r.id == rid then applyPatch p r else r)) tid
      ≤ nonTerminalCountForTask runs tid :=
  nonTerminalCountForTask_map_le runs _ tid (fun r _ => patch_map_pointwise rid p st hst hterm r)

lemma cond_set_map_nonterminal_le (runs : List TaskRun) (c : TaskRun → Bool)
    (stT : RunStatus) (hterm : stT.isTerminal = true) (now tid : Nat) :
    nonTerminalCountForTask
        (runs.map (fun r =>
          if c r then { r with status := stT, completed_at := some now } else r)) tid
      ≤ nonTerminalCountForTask runs tid :=
  nonTerminalCountForTask_map_le runs _ tid (fun r _ => cond_set_pointwise c stT hterm now r)

lemma noLaunched_map_patch (runs : List TaskRun) (rid : Nat) (p : RunPatch)
    (st : RunStatus) (hst : p.status = some st) (hterm : st.isTerminal = true)
    (h : noLaunched runs) :
    noLaunched (runs.map (fun r => if r.id == rid then applyPatch p r else r)) := by
  intro x hx
  obtain ⟨r, hr, hxr⟩ := List.mem_map.mp hx
  rw [← hxr]
  show (if r.id == rid then applyPatch p r else r).status ≠ RunStatus.launched
  obtain ⟨-, hstatus⟩ := patch_map_pointwise rid p st hst hterm r
  cases hstatus with
  | inl heq => rw [heq]; exact h r hr
  | inr hterm' => exact terminal_ne_launched _ hterm'

lemma step_preserves_cap {fs : FileSystem} {s s' : EngineState}
    (hstep : Step fs s s')
    (hinv : Runner.countPendingRunning s.runs ≤ Runner.MAX_CONCURRENT) :
    Runner.countPendingRunning s'.runs ≤ Runner.MAX_CONCURRENT := by
  cases hstep with
  | start tid opts rid pid now hfresh =>
    cases startRun_outcome s fs tid opts rid pid now hfresh with
    | inl h => rw [h]; exact hinv
    | inr h =>
      obtain ⟨hruns, hcap, -⟩ := h
      rw [hruns, countPendingRunning_append]
      have h1 : Runner.countPendingRunning [startedRun tid opts rid pid now] = 1 := rfl
      rw [h1]
      omega
  | close rid tid code buf now =>
    cases onClose_runs s rid tid code buf now with
    | inl h => rw [h]; exact hinv
    | inr h =>
      obtain ⟨st, hterm, hruns⟩ := h
      rw [hruns]
      exact le_trans (patch_map_active_le s.runs rid _ st rfl hterm) hinv
  | procError rid tid msg buf now =>
    rw [onError_runs s rid tid msg buf now]
    exact le_trans (patch_map_active_le s.runs rid _ RunStatus.failed rfl rfl) hinv
  | cancel rid now =>
    cases cancelRun_runs s rid now with
    | inl h => rw [h]; exact hinv
    | inr h =>
      rw [h]
      exact le_trans (patch_map_active_le s.runs rid _ RunStatus.cancelled rfl rfl) hinv
  | output rid tid buf chunk =>
    rw [(handleData_state s rid tid buf chunk).1]
    exact hinv
  | killTimeout rid =>
    rw [cancelKillTimeout_runs]
    exact hinv

lemma step_preserves_exclusivity {fs : FileSystem} {s s' : EngineState}
    (hstep : Step fs s s')
    (hnl : noLaunched s.runs) (hinv : atMostOneNonTerminalPerTask s.runs) :
    noLaunched s'.runs ∧ atMostOneNonTerminalPerTask s'.runs := by
  cases hstep with
  | start tid opts rid pid now hfresh =>
    cases startRun_outcome s fs tid opts rid pid now hfresh with
    | inl h => rw [h]; exact ⟨hnl, hinv⟩
    | inr h =>
      obtain ⟨hruns, -, hact⟩ := h
      rw [hruns]
      constructor
      · intro x hx
        rcases List.mem_append.mp hx with hx | hx
        · exact hnl x hx
        · rw [List.mem_singleton.mp hx]
          exact fun e => absurd e (by simp [startedRun, pendingRun])
      · intro tid'
        rw [nonTerminalCountForTask_append]
        by_cases htid : tid' = tid
        · subst htid
          rw [nonTerminalCount_zero_of_guard s.runs tid' hact hnl]
          have := nonTerminalCountForTask_single_le (startedRun tid' opts rid pid now) tid'
          omega
        · rw [nonTerminalCountForTask_single_ne _ _
            (by simp [startedRun, pendingRun]; exact fun e => absurd e.symm htid)]
          simpa using hinv tid'
  | close rid tid code buf now =>
    cases onClose_runs s rid tid code buf now with
    | inl h => rw [h]; exact ⟨hnl, hinv⟩
    | inr h =>
      obtain ⟨st, hterm, hruns⟩ := h
      rw [hruns]
      exact ⟨noLaunched_map_patch s.runs rid _ st rfl hterm hnl,
        fun tid' => le_trans (patch_map_nonterminal_le s.runs rid _ st rfl hterm tid')
          (hinv tid')⟩
  | procError rid tid msg buf now =>
    rw [onError_runs s rid tid msg buf now]
    exact ⟨noLaunched_map_patch s.runs rid _ RunStatus.failed rfl rfl hnl,
      fun tid' => le_trans (patch_map_nonterminal_le s.runs rid _ RunStatus.failed rfl rfl tid')
        (hinv tid')⟩
  | cancel rid now =>
    cases cancelRun_runs s rid now with
    | inl h => rw [h]; exact ⟨hnl, hinv⟩
    | inr h =>
      rw [h]
      exact ⟨noLaunched_map_patch s.runs rid _ RunStatus.cancelled rfl rfl hnl,
        fun tid' => le_trans
          (patch_map_nonterminal_le s.runs rid _ RunStatus.cancelled rfl rfl tid')
          (hinv tid')⟩
  | output rid tid buf chunk =>
    rw [(handleData_state s rid tid buf chunk).1]
    exact ⟨hnl, hinv⟩
  | killTimeout rid =>
    rw [cancelKillTimeout_runs]
    exact ⟨hnl, hinv⟩

lemma itermstep_preserves_exclusivity {fs : FileSystem} {s s' : EngineState}
    (hstep : ITermStep fs s s')
    (hinv : atMostOneNonTerminalPerTask s.runs) :
    atMostOneNonTerminalPerTask s'.runs := by
  cases hstep with
  | start tid opts rid now osa hfresh =>
    cases iterm_startRun_outcome s fs tid opts rid now osa hfresh with
    | inl h => rw [h]; exact hinv
    | inr h =>
      obtain ⟨r', hruns, htid, -, hact⟩ := h
      rw [hruns]
      intro tid'
      rw [nonTerminalCountForTask_append]
      by_cases ht : tid' = tid
      · subst ht
        rw [iterm_nonTerminalCount_zero_of_guard s.runs tid' hact]
        have := nonTerminalCountForTask_single_le r' tid'
        omega
      · rw [nonTerminalCountForTask_single_ne r' tid' (by rw [htid]; exact fun e => ht e.symm)]
        simpa using hinv tid'
  | cancel rid now =>
    cases iterm_cancelRun_runs s rid now with
    | inl h => rw [h]; exact hinv
    | inr h =>
      rw [h]
      exact fun tid' => le_trans
        (cond_set_map_nonterminal_le s.runs _ RunStatus.cancelled rfl now tid') (hinv tid')
  | complete rid now =>
    cases markRunComplete_runs s rid now with
    | inl h => rw [h]; exact hinv
    | inr h =>
      rw [h]
      exact fun tid' => le_trans
        (cond_set_map_nonterminal_le s.runs _ RunStatus.completed rfl now tid') (hinv tid')

/-! ## C3: the concurrency cap -/

/-- C3: in the captured-subprocess variant, a `startRun` issued while the
count of `pending`-plus-`running` Runs is at `MAX_CONCURRENT` fails with a
validation error and inserts no Run (the check and the insert form one
atomic step, `insertRun`), and every engine step preserves the cap, so
the count never exceeds `MAX_CONCURRENT`. -/
theorem concurrency_cap_invariant (fs : FileSystem) :
    (∀ (s : EngineState) (taskId : Nat) (options : StartRunOptions) (runId pid now : Nat),
      Runner.MAX_CONCURRENT ≤ Runner.countPendingRunning s.runs →
        (Runner.startRun s fs taskId options runId pid now).1 = s
        ∧ ∃ m, (Runner.startRun s fs taskId options runId pid now).2
            = .error (.validation m))
    ∧ (∀ s s' : EngineState, Runner.countPendingRunning s.runs ≤ Runner.MAX_CONCURRENT →
        Step fs s s' → Runner.countPendingRunning s'.runs ≤ Runner.MAX_CONCURRENT) := by
  constructor
  · intro s tid opts rid pid now hcap
    cases hv : validateProjectDir fs opts.project_dir with
    | error e =>
      have hs : Runner.startRun s fs tid opts rid pid now = (s, .error e) := by
        simp [Runner.startRun, hv]
      obtain ⟨m, hm⟩ := validateProjectDir_error_validation fs opts.project_dir e hv
      rw [hs]
      exact ⟨rfl, ⟨m, by rw [hm]⟩⟩
    | ok u =>
      cases u
      have hs : Runner.startRun s fs tid opts rid pid now
          = (s, .error (.validation
              "Maximum concurrent runs (2) reached. Cancel a running task first.")) := by
        simp [Runner.startRun, hv, insertRun_capacity s tid opts rid now hcap]
      rw [hs]
      exact ⟨rfl, ⟨_, rfl⟩⟩
  · intro s s' hinv hstep
    exact step_preserves_cap hstep hinv

/-- C3 witness: with two runs already `running`, a third `startRun` for a
fresh task is rejected with a validation error and the state is unchanged. -/
theorem concurrency_cap_invariant_witness :
    (Runner.startRun stateTwoRunning fsTrivial 9 optsEx 5 42 3).1 = stateTwoRunning
    ∧ ∃ m, (Runner.startRun stateTwoRunning fsTrivial 9 optsEx 5 42 3).2
        = .error (.validation m) :=
  (concurrency_cap_invariant fsTrivial).1 stateTwoRunning 9 optsEx 5 42 3 (by decide)

/-! ## C1: the cancellation race -/

lemma onClose_cancelled_noop (s : EngineState) (rid tid : Nat) (code : Option Int)
    (buf : List Char) (now : Nat)
    (hc : (findRun s.runs rid).map TaskRun.status = some RunStatus.cancelled) :
    Runner.onClose s rid tid code buf now
      = { s with active := s.active.filter (fun x => x != rid) } := by
  simp [Runner.onClose, hc]

lemma cancelRun_true_runs (s : EngineState) (rid now : Nat)
    (h : (Runner.cancelRun s rid now).2 = true) :
    (Runner.cancelRun s rid now).1.runs
      = s.runs.map (fun r => if r.id == rid then applyPatch (cancelledPatch now) r else r) := by
  by_cases hm : (s.active.contains rid) = true
  · unfold Runner.cancelRun
    rw [if_pos hm]
    dsimp only
    split <;> rfl
  · cases hfind : s.runs.find? (fun r => r.id == rid && r.status == RunStatus.running) with
    | some run =>
      unfold Runner.cancelRun
      rw [if_neg hm, hfind]
      rfl
    | none =>
      exfalso
      have hfalse : (Runner.cancelRun s rid now).2 = false := by
        unfold Runner.cancelRun
        rw [if_neg hm, hfind]
      rw [hfalse] at h
      cases h

lemma cancelRun_true_status (s : EngineState) (rid now : Nat)
    (htrue : (Runner.cancelRun s rid now).2 = true) :
    (findRun (Runner.cancelRun s rid now).1.runs rid).map TaskRun.status
      = (findRun s.runs rid).map (fun _ => RunStatus.cancelled) := by
  have hg : ∀ r : TaskRun,
      ((fun r => if r.id == rid then applyPatch (cancelledPatch now) r else r) r).id = r.id := by
    intro r
    by_cases h : (r.id == rid) = true <;> simp [h]
  rw [cancelRun_true_runs s rid now htrue]
  unfold findRun
  rw [find?_id_map s.runs rid _ hg]
  cases hfind : s.runs.find? (fun r => r.id == rid) with
  | none => rfl
  | some r₀ =>
    have hid₀ := List.find?_some hfind
    simp only [Option.map_some']
    rw [if_pos hid₀, applyPatch_status _ RunStatus.cancelled r₀ rfl]

/-- C1 (amended): after a Run has reached `cancelled`, the process-close
handler re-reads the persisted status and writes nothing further — runs,
tasks and the event log are untouched — so `cancelRun` followed by the
process's natural exit always leaves the persisted status `cancelled`.
The process-error handler, by contrast, performs no such re-read (see the
counterexample, where it overwrites `cancelled` with `failed`). -/
theorem cancel_then_close_stays_cancelled :
    (∀ (s : EngineState) (runId taskId : Nat) (code : Option Int)
        (buf : List Char) (now : Nat),
      (findRun s.runs runId).map TaskRun.status = some RunStatus.cancelled →
        (Runner.onClose s runId taskId code buf now).runs = s.runs
        ∧ (Runner.onClose s runId taskId code buf now).tasks = s.tasks
        ∧ (Runner.onClose s runId taskId code buf now).events = s.events)
    ∧ (∀ (s : EngineState) (runId taskId : Nat) (code : Option Int)
        (buf : List Char) (now now' : Nat),
      (Runner.cancelRun s runId now).2 = true →
      (findRun s.runs runId).isSome = true →
        (findRun (Runner.onClose (Runner.cancelRun s runId now).1
            runId taskId code buf now').runs runId).map TaskRun.status
          = some RunStatus.cancelled) := by
  constructor
  · intro s rid tid code buf now hc
    rw [onClose_cancelled_noop s rid tid code buf now hc]
    exact ⟨rfl, rfl, rfl⟩
  · intro s rid tid code buf now now' htrue hsome
    have hstat : (findRun (Runner.cancelRun s rid now).1.runs rid).map TaskRun.status
        = some RunStatus.cancelled := by
      rw [cancelRun_true_status s rid now htrue]
      obtain ⟨r₀, hr₀⟩ := Option.isSome_iff_exists.mp hsome
      rw [hr₀]
      rfl
    rw [onClose_cancelled_noop _ rid tid code buf now' hstat]
    exact hstat

/-- C1 witness: cancelling the live running run of `stateOneRunning` and
then letting its close handler fire leaves the status `cancelled`. -/
theorem cancel_then_close_stays_cancelled_witness :
    (findRun (Runner.onClose (Runner.cancelRun stateOneRunning 1 5).1
        1 7 (some 0) [] 9).runs 1).map TaskRun.status = some RunStatus.cancelled :=
  cancel_then_close_stays_cancelled.2 stateOneRunning 1 7 (some 0) [] 5 9
    (by decide) (by decide)

/-- C1 counterexample: the process-error handler does not re-read the
persisted status: fired on a Run already `cancelled`, it overwrites the
status with `failed`, so the claim's "every lifecycle handler … performs
no further state write" is false for the error handler. -/
theorem error_handler_overwrites_cancelled :
    (findRun stateCancelledRun.runs 1).map TaskRun.status = some RunStatus.cancelled
    ∧ (findRun (Runner.onError stateCancelledRun 1 7 "spawn error" [] 9).runs 1).map
        TaskRun.status = some RunStatus.failed := by
  decide

/-! ## C2: per-task exclusivity -/

/-- C2 (amended): each variant's admission transaction rejects a second
Run for a task that already has a Run among the statuses that variant
checks — `pending`/`running` for the captured variant (whose validation
error is the exclusivity message unless the capacity message takes
precedence), `pending`/`running`/`launched` for the interactive variant —
inserting nothing; the captured variant never writes `launched`, and under
that invariant each variant preserves "at most one non-terminal Run per
task".  (As stated the claim fails: the captured variant's check ignores
a `launched` Run — see the counterexample.) -/
theorem per_task_exclusivity (fs : FileSystem) :
    (∀ (s : EngineState) (taskId : Nat) (options : StartRunOptions) (runId pid now : Nat),
      (∃ r ∈ s.runs, r.task_id = taskId
          ∧ (r.status = RunStatus.pending ∨ r.status = RunStatus.running)) →
        (Runner.startRun s fs taskId options runId pid now).1 = s
        ∧ ∃ m, (Runner.startRun s fs taskId options runId pid now).2
            = .error (.validation m))
    ∧ (∀ (s : EngineState) (taskId : Nat) (options : StartRunOptions)
        (runId now : Nat) (osa : Bool),
        validateProjectDir fs options.project_dir = .ok () →
        (∃ r ∈ s.runs, r.task_id = taskId
            ∧ (r.status = RunStatus.pending ∨ r.status = RunStatus.running
                ∨ r.status = RunStatus.launched)) →
        ITermRunner.startRun s fs taskId options runId now osa
          = (s, .error (.validation "Task already has an active run")))
    ∧ (∀ s s' : EngineState, noLaunched s.runs → atMostOneNonTerminalPerTask s.runs →
        Step fs s s' → noLaunched s'.runs ∧ atMostOneNonTerminalPerTask s'.runs)
    ∧ (∀ s s' : EngineState, atMostOneNonTerminalPerTask s.runs →
        ITermStep fs s s' → atMostOneNonTerminalPerTask s'.runs) := by
  refine ⟨?_, ?_, fun s s' hnl hinv hstep => step_preserves_exclusivity hstep hnl hinv,
    fun s s' hinv hstep => itermstep_preserves_exclusivity hstep hinv⟩
  · intro s tid opts rid pid now hex
    cases hv : validateProjectDir fs opts.project_dir with
    | error e =>
      have hs : Runner.startRun s fs tid opts rid pid now = (s, .error e) := by
        simp [Runner.startRun, hv]
      obtain ⟨m, hm⟩ := validateProjectDir_error_validation fs opts.project_dir e hv
      rw [hs]
      exact ⟨rfl, ⟨m, by rw [hm]⟩⟩
    | ok u =>
      cases u
      have hact : s.runs.any
          (fun r => r.task_id == tid && Runner.isActiveStatus r.status) = true := by
        obtain ⟨r, hr, hid, hst⟩ := hex
        rw [List.any_eq_true]
        refine ⟨r, hr, ?_⟩
        rw [Bool.and_eq_true]
        refine ⟨by simp [hid], ?_⟩
        cases hst with
        | inl h => simp [Runner.isActiveStatus, h]
        | inr h => simp [Runner.isActiveStatus, h]
      by_cases hcap : Runner.MAX_CONCURRENT ≤ Runner.countPendingRunning s.runs
      · have hs : Runner.startRun s fs tid opts rid pid now
            = (s, .error (.validation
                "Maximum concurrent runs (2) reached. Cancel a running task first.")) := by
          simp [Runner.startRun, hv, insertRun_capacity s tid opts rid now hcap]
        rw [hs]
        exact ⟨rfl, ⟨_, rfl⟩⟩
      · have hs : Runner.startRun s fs tid opts rid pid now
            = (s, .error (.validation "Task already has an active run")) := by
          simp [Runner.startRun, hv,
            insertRun_activeTask s tid opts rid now (Nat.lt_of_not_le hcap) hact]
        rw [hs]
        exact ⟨rfl, ⟨_, rfl⟩⟩
  · intro s tid opts rid now osa hv hex
    have hact : s.runs.any
        (fun r => r.task_id == tid && ITermRunner.isActiveStatus r.status) = true := by
      obtain ⟨r, hr, hid, hst⟩ := hex
      rw [List.any_eq_true]
      refine ⟨r, hr, ?_⟩
      rw [Bool.and_eq_true]
      refine ⟨by simp [hid], ?_⟩
      rcases hst with h | h | h <;> simp [ITermRunner.isActiveStatus, h]
    exact iterm_startRun_active_eq s fs tid opts rid now osa hv hact

/-- C2 witness: a second `startRun` for a task with a `running` Run is
rejected by the captured variant and changes nothing. -/
theorem per_task_exclusivity_witness :
    (Runner.startRun stateOneRunning fsTrivial 7 optsEx 2 99 5).1 = stateOneRunning
    ∧ ∃ m, (Runner.startRun stateOneRunning fsTrivial 7 optsEx 2 99 5).2
        = .error (.validation m) :=
  (per_task_exclusivity fsTrivial).1 stateOneRunning 7 optsEx 2 99 5
    ⟨runWith 1 7 .running, by decide, by decide, Or.inr (by decide)⟩

/-- C2 counterexample: the captured variant's exclusivity check covers
only `pending` and `running`: for a task whose Run is `launched` (a
non-terminal status), `startRun` succeeds and a second non-terminal Run
for the same task is inserted, contradicting "a startRun call for a task
that already has a Run in a non-terminal state always fails...in both
runner variants". -/
theorem captured_startRun_ignores_launched :
    (Runner.startRun stateLaunchedRun fsTrivial 7 optsEx 2 99 5).2
        = .ok (startedRun 7 optsEx 2 99 5)
    ∧ ((startedRun 7 optsEx 2 99 5).status.isTerminal = false)
    ∧ ((Runner.startRun stateLaunchedRun fsTrivial 7 optsEx 2 99 5).1.runs.filter
        (fun r => r.task_id == 7 && !r.status.isTerminal)).length = 2 := by
  refine ⟨rfl, rfl, ?_⟩
  decide

/-! ## C4: startRun return value and spawn placement -/

/-- C4 (amended): the check-and-insert transaction (`insertRun`) creates
the Run in `pending` state and performs no spawn — it touches neither the
live-process registry nor the event stream; spawning happens after the
transaction, and by the time `startRun` returns, the row has been updated,
so the Run value returned to the caller has status `running` (not
`pending` — see the counterexample) with the child registered live. -/
theorem startRun_spawn_after_insert (fs : FileSystem) :
    (∀ (s : EngineState) (taskId : Nat) (options : StartRunOptions) (runId now : Nat),
      (Runner.insertRun s taskId options runId now).1.active = s.active
      ∧ (Runner.insertRun s taskId options runId now).1.events = s.events
      ∧ ((Runner.insertRun s taskId options runId now).2 = .ok () →
          (∀ r ∈ s.runs, r.id ≠ runId) →
          (findRun (Runner.insertRun s taskId options runId now).1.runs runId).map
              TaskRun.status = some RunStatus.pending))
    ∧ (∀ (s : EngineState) (taskId : Nat) (options : StartRunOptions)
        (runId pid now : Nat) (run : TaskRun),
        (∀ r ∈ s.runs, r.id ≠ runId) →
        (Runner.startRun s fs taskId options runId pid now).2 = .ok run →
        run.status = RunStatus.running
        ∧ runId ∈ (Runner.startRun s fs taskId options runId pid now).1.active) := by
  constructor
  · intro s tid opts rid now
    refine ⟨?_, ?_, ?_⟩
    · unfold Runner.insertRun
      split
      · rfl
      · split <;> rfl
    · unfold Runner.insertRun
      split
      · rfl
      · split <;> rfl
    · intro hok hfresh
      by_cases hcap : Runner.MAX_CONCURRENT ≤ Runner.countPendingRunning s.runs
      · rw [insertRun_capacity s tid opts rid now hcap] at hok
        cases hok
      · cases hact : s.runs.any
            (fun r => r.task_id == tid && Runner.isActiveStatus r.status) with
        | true =>
          rw [insertRun_activeTask s tid opts rid now (Nat.lt_of_not_le hcap) hact] at hok
          cases hok
        | false =>
          rw [insertRun_success s tid opts rid now (Nat.lt_of_not_le hcap) hact]
          rw [show ({ s with runs := s.runs ++ [pendingRun tid opts rid now] }
              : EngineState).runs = s.runs ++ [pendingRun tid opts rid now] from rfl]
          rw [findRun_append_fresh s.runs _ rid hfresh rfl]
          rfl
  · intro s tid opts rid pid now run hfresh hok
    cases hv : validateProjectDir fs opts.project_dir with
    | error e =>
      rw [show Runner.startRun s fs tid opts rid pid now = (s, .error e) by
        simp [Runner.startRun, hv]] at hok
      cases hok
    | ok u =>
      cases u
      by_cases hcap : Runner.MAX_CONCURRENT ≤ Runner.countPendingRunning s.runs
      · rw [show Runner.startRun s fs tid opts rid pid now
            = (s, .error (.validation
                "Maximum concurrent runs (2) reached. Cancel a running task first.")) by
          simp [Runner.startRun, hv, insertRun_capacity s tid opts rid now hcap]] at hok
        cases hok
      · cases hact : s.runs.any
            (fun r => r.task_id == tid && Runner.isActiveStatus r.status) with
        | true =>
          rw [show Runner.startRun s fs tid opts rid pid now
              = (s, .error (.validation "Task already has an active run")) by
            simp [Runner.startRun, hv,
              insertRun_activeTask s tid opts rid now (Nat.lt_of_not_le hcap) hact]] at hok
          cases hok
        | false =>
          obtain ⟨hruns, hactive, hok'⟩ := startRun_success_eq s fs tid opts rid pid now
            hfresh hv (Nat.lt_of_not_le hcap) hact
          rw [hok'] at hok
          injection hok with hok
          refine ⟨by rw [← hok]; rfl, ?_⟩
          rw [hactive]
          simp

/-- C4 witness: starting a run from the empty state succeeds, the returned
Run has status `running`, and the child is tracked live. -/
theorem startRun_spawn_after_insert_witness :
    (startedRun 7 optsEx 1 42 5).status = RunStatus.running
    ∧ 1 ∈ (Runner.startRun emptyState fsTrivial 7 optsEx 1 42 5).1.active :=
  (startRun_spawn_after_insert fsTrivial).2 emptyState 7 optsEx 1 42 5
    (startedRun 7 optsEx 1 42 5) (by decide) rfl

/-- C4 counterexample: the Run value returned to the caller on success has
status `running`, not `pending` — the source re-reads the row only after
the post-spawn update to `running`. -/
theorem startRun_returns_running_not_pending :
    (Runner.startRun emptyState fsTrivial 7 optsEx 1 42 5).2
        = .ok (startedRun 7 optsEx 1 42 5)
    ∧ (startedRun 7 optsEx 1 42 5).status ≠ RunStatus.pending := ⟨rfl, by decide⟩

/-! ## C6: cancelRun return conditions -/

/-- C6 (amended): the captured variant's `cancelRun` returns `true`
exactly when the run id is tracked live in `activeProcesses` or the
persisted record shows status `running` — a persisted non-terminal
`pending` record that is not tracked live yields `false` (see the
counterexample) — and the interactive variant's returns `true` exactly
when a record with any non-terminal status exists; whenever `true` is
returned the persisted status becomes `cancelled`, and on `false` the
state is unchanged and no error is raised. -/
theorem cancelRun_return_conditions :
    (∀ (s : EngineState) (runId now : Nat),
      (Runner.cancelRun s runId now).2
        = (s.active.contains runId
            || s.runs.any (fun r => r.id == runId && r.status == RunStatus.running)))
    ∧ (∀ (s : EngineState) (runId now : Nat),
        (Runner.cancelRun s runId now).2 = false → (Runner.cancelRun s runId now).1 = s)
    ∧ (∀ (s : EngineState) (runId now : Nat),
        (Runner.cancelRun s runId now).2 = true →
        (findRun (Runner.cancelRun s runId now).1.runs runId).map TaskRun.status
          = (findRun s.runs runId).map (fun _ => RunStatus.cancelled))
    ∧ (∀ (s : EngineState) (runId now : Nat),
        (ITermRunner.cancelRun s runId now).2
          = s.runs.any (fun r => r.id == runId && ITermRunner.isActiveStatus r.status))
    ∧ (∀ (s : EngineState) (runId now : Nat),
        (ITermRunner.cancelRun s runId now).2 = false →
          (ITermRunner.cancelRun s runId now).1 = s)
    ∧ (∀ (s : EngineState) (runId now : Nat),
        (s.runs.map TaskRun.id).Nodup →
        (ITermRunner.cancelRun s runId now).2 = true →
        (findRun (ITermRunner.cancelRun s runId now).1.runs runId).map TaskRun.status
          = some RunStatus.cancelled) := by
  refine ⟨?_, ?_, fun s rid now h => cancelRun_true_status s rid now h, ?_, ?_, ?_⟩
  · intro s rid now
    by_cases hm : (s.active.contains rid) = true
    · unfold Runner.cancelRun
      rw [if_pos hm, hm]
      dsimp only
      split <;> rfl
    · have hm' : s.active.contains rid = false := by
        cases h : s.active.contains rid with
        | true => exact absurd h hm
        | false => rfl
      unfold Runner.cancelRun
      rw [if_neg hm, hm']
      cases hfind : s.runs.find? (fun r => r.id == rid && r.status == RunStatus.running) with
      | some run =>
        have hq := List.find?_some hfind
        have : s.runs.any (fun r => r.id == rid && r.status == RunStatus.running) = true :=
          List.any_eq_true.mpr ⟨run, List.mem_of_find?_eq_some hfind, hq⟩
        rw [this]
        rfl
      | none =>
        have : s.runs.any (fun r => r.id == rid && r.status == RunStatus.running) = false :=
          List.any_eq_false.mpr (List.find?_eq_none.mp hfind)
        rw [this]
        rfl
  · intro s rid now h
    by_cases hm : (s.active.contains rid) = true
    · exfalso
      have : (Runner.cancelRun s rid now).2 = true := by
        unfold Runner.cancelRun
        rw [if_pos hm]
        dsimp only
        split <;> rfl
      rw [this] at h
      cases h
    · cases hfind : s.runs.find? (fun r => r.id == rid && r.status == RunStatus.running) with
      | some run =>
        exfalso
        have : (Runner.cancelRun s rid now).2 = true := by
          unfold Runner.cancelRun
          rw [if_neg hm, hfind]
        rw [this] at h
        cases h
      | none =>
        unfold Runner.cancelRun
        rw [if_neg hm, hfind]
  · intro s rid now
    unfold ITermRunner.cancelRun
    cases hfind : s.runs.find?
        (fun r => r.id == rid && ITermRunner.isActiveStatus r.status) with
    | some run =>
      have hq := List.find?_some hfind
      have : s.runs.any (fun r => r.id == rid && ITermRunner.isActiveStatus r.status) = true :=
        List.any_eq_true.mpr ⟨run, List.mem_of_find?_eq_some hfind, hq⟩
      rw [this]
    | none =>
      have : s.runs.any (fun r => r.id == rid && ITermRunner.isActiveStatus r.status) = false :=
        List.any_eq_false.mpr (List.find?_eq_none.mp hfind)
      rw [this]
  · intro s rid now h
    cases hfind : s.runs.find?
        (fun r => r.id == rid && ITermRunner.isActiveStatus r.status) with
    | some run =>
      exfalso
      have : (ITermRunner.cancelRun s rid now).2 = true := by
        unfold ITermRunner.cancelRun
        rw [hfind]
      rw [this] at h
      cases h
    | none =>
      unfold ITermRunner.cancelRun
      rw [hfind]
  · intro s rid now hnodup h
    cases hfind : s.runs.find?
        (fun r => r.id == rid && ITermRunner.isActiveStatus r.status) with
    | none =>
      exfalso
      have : (ITermRunner.cancelRun s rid now).2 = false := by
        unfold ITermRunner.cancelRun
        rw [hfind]
      rw [this] at h
      cases h
    | some run =>
      have hpr := List.find?_some hfind
      have hmem := List.mem_of_find?_eq_some hfind
      rw [Bool.and_eq_true] at hpr
      obtain ⟨hid, hst⟩ := hpr
      have hruns : (ITermRunner.cancelRun s rid now).1.runs
          = s.runs.map (fun r =>
              if r.id == rid && ITermRunner.isActiveStatus r.status then
                { r with status := .cancelled, completed_at := some now }
              else r) := by
        unfold ITermRunner.cancelRun
        rw [hfind]
      rw [hruns]
      unfold findRun
      rw [find?_id_map s.runs rid _ (fun r => by
        by_cases hc : (r.id == rid && ITermRunner.isActiveStatus r.status) = true <;>
          simp [hc])]
      cases hfind₁ : s.runs.find? (fun r => r.id == rid) with
      | none =>
        exact absurd hid (List.find?_eq_none.mp hfind₁ run hmem)
      | some r₁ =>
        have hid₁ := List.find?_some hfind₁
        have hmem₁ := List.mem_of_find?_eq_some hfind₁
        have heq : r₁ = run := by
          apply List.inj_on_of_nodup_map hnodup hmem₁ hmem
          rw [beq_iff_eq] at hid hid₁
          rw [hid₁, hid]
        subst heq
        simp only [Option.map_some']
        rw [if_pos (by rw [Bool.and_eq_true]; exact ⟨hid, hst⟩)]

/-- C6 witness: cancelling the live running run persists `cancelled`. -/
theorem cancelRun_return_conditions_witness :
    (findRun (Runner.cancelRun stateOneRunning 1 5).1.runs 1).map TaskRun.status
      = (findRun stateOneRunning.runs 1).map (fun _ => RunStatus.cancelled) :=
  cancelRun_return_conditions.2.2.1 stateOneRunning 1 5 (by decide)

/-- C6 counterexample: a Run persisted as `pending` (non-terminal) whose
process is not tracked live: the captured variant's `cancelRun` returns
`false` and changes nothing, although the claim requires `true` for any
non-terminal status. -/
theorem cancelRun_pending_untracked_returns_false :
    ((runWith 3 8 .pending).status.isTerminal = false)
    ∧ (Runner.cancelRun statePendingUntracked 3 5).2 = false
    ∧ (Runner.cancelRun statePendingUntracked 3 5).1 = statePendingUntracked := by
  decide

/-! ## C10: no capacity cap in the interactive variant -/

lemma launchSeq_runs (n : Nat) :
    (launchSeq n).runs
      = (List.range n).map
          (fun i => launchedRun i { cli_type := .claude, prompt := "fix bug" } i 0) := by
  induction n with
  | zero => rfl
  | succ n ih =>
    have hfresh : ∀ r ∈ (launchSeq n).runs, r.id ≠ n := by
      rw [ih]
      intro r hr
      obtain ⟨i, hi, rfl⟩ := List.mem_map.mp hr
      have hlt : i < n := List.mem_range.mp hi
      simp only [launchedRun]
      omega
    have hact : (launchSeq n).runs.any
        (fun r => r.task_id == n && ITermRunner.isActiveStatus r.status) = false := by
      rw [ih, List.any_eq_false]
      intro r hr
      obtain ⟨i, hi, rfl⟩ := List.mem_map.mp hr
      have hlt : i < n := List.mem_range.mp hi
      rw [Bool.and_eq_true]
      rintro ⟨hid, -⟩
      rw [beq_iff_eq] at hid
      simp only [launchedRun] at hid
      omega
    have hv : validateProjectDir fsTrivial
        ({ cli_type := .claude, prompt := "fix bug" } : StartRunOptions).project_dir
        = .ok () := rfl
    show (ITermRunner.startRun (launchSeq n) fsTrivial n
        { cli_type := .claude, prompt := "fix bug" } n 0 true).1.runs = _
    rw [(iterm_startRun_success_eq (launchSeq n) fsTrivial n _ n 0 hfresh hv hact).1,
      ih, List.range_succ, List.map_append]
    rfl

/-- C10: the interactive variant's admission transaction checks only
per-task exclusivity: with valid options and no active Run for the task,
`startRun` succeeds regardless of how many Runs are already `launched`;
its validation errors are only the `project_dir` errors and the per-task
exclusivity message, never a capacity message; and iterating it over `n`
distinct tasks leaves `n` Runs simultaneously `launched` — the
`MAX_CONCURRENT` cap is not enforced. -/
theorem iterm_no_capacity_cap (fs : FileSystem) :
    (∀ (s : EngineState) (taskId : Nat) (options : StartRunOptions) (runId now : Nat),
      validateProjectDir fs options.project_dir = .ok () →
      s.runs.any (fun r => r.task_id == taskId && ITermRunner.isActiveStatus r.status)
          = false →
      (∀ r ∈ s.runs, r.id ≠ runId) →
      (ITermRunner.startRun s fs taskId options runId now true).2
        = .ok (launchedRun taskId options runId now))
    ∧ (∀ (s : EngineState) (taskId : Nat) (options : StartRunOptions) (runId now : Nat)
        (osa : Bool) (m : String),
        (ITermRunner.startRun s fs taskId options runId now osa).2
            = .error (.validation m) →
        validateProjectDir fs options.project_dir = .error (.validation m)
        ∨ m = "Task already has an active run")
    ∧ (∀ n : Nat,
        ((launchSeq n).runs.filter (fun r => r.status == RunStatus.launched)).length = n) := by
  refine ⟨?_, ?_, ?_⟩
  · intro s tid opts rid now hv hact hfresh
    exact (iterm_startRun_success_eq s fs tid opts rid now hfresh hv hact).2
  · intro s tid opts rid now osa m h
    cases hv : validateProjectDir fs opts.project_dir with
    | error e =>
      left
      rw [iterm_startRun_validation_error s fs tid opts rid now osa e hv] at h
      simp only at h
      injection h with h
      rw [h]
    | ok u =>
      cases u
      cases hact : s.runs.any
          (fun r => r.task_id == tid && ITermRunner.isActiveStatus r.status) with
      | true =>
        right
        rw [iterm_startRun_active_eq s fs tid opts rid now osa hv hact] at h
        simp only at h
        cases h
        rfl
      | false =>
        exfalso
        have hins := iterm_insertRun_success s tid opts rid now hact
        cases osa with
        | true =>
          revert h
          simp only [ITermRunner.startRun, ITermRunner.launchInITerm2, hv, hins,
            Bool.not_true, Bool.false_eq_true, if_false, updateTaskStatus_runs]
          split
          · intro h
            cases h
          · intro h
            exact absurd h (by simp)
        | false =>
          revert h
          simp only [ITermRunner.startRun, ITermRunner.launchInITerm2, hv, hins,
            Bool.not_false, if_true, updateRun_runs]
          intro h
          exact absurd h (by simp)
  · intro n
    rw [launchSeq_runs]
    rw [List.filter_eq_self.mpr ?_]
    · rw [List.length_map, List.length_range]
    · intro r hr
      obtain ⟨i, hi, rfl⟩ := List.mem_map.mp hr
      rfl

/-- C10 witness: with three Runs already `launched` (one more than
`MAX_CONCURRENT`), a fourth interactive `startRun` still succeeds. -/
theorem iterm_no_capacity_cap_witness :
    (ITermRunner.startRun (launchSeq 3) fsTrivial 5 optsEx 10 0 true).2
      = .ok (launchedRun 5 optsEx 10 0) :=
  (iterm_no_capacity_cap fsTrivial).1 (launchSeq 3) 5 optsEx 10 0
    rfl (by decide) (by decide)

end MissionControl

